import Mathlib

/-!
Verification development for the `iso8601-timestamp` crate.

The file embeds the crate's two core algorithms — `parse_iso8601`
(`src/parse.rs`) and `do_format` plus its `template`/`TimestampStr` support
(`src/format.rs`, `src/ts_str.rs`) — as executable Lean definitions over byte
lists (`List Nat`, each entry a byte value), together with a model of the
small slice of the external `time` crate the two algorithms call into
(calendar dates, times, `checked_add`).  Machine-integer behaviour (wrapping
arithmetic, truncating casts, SWAR bit tricks) is made explicit with `% 2^w`
and `Nat.land`/`Nat.lor`/shifts.  The feature flag `verify` of the crate is a
`Bool` parameter throughout.

Definitions come first, theorems afterwards.
-/

/-! ## Model of the external `time` crate

The crate delegates calendar validity and calendar arithmetic to the `time`
library (`Date::from_calendar_date`, `Date::to_calendar_date`,
`Time::from_hms_nano`, `PrimitiveDateTime::checked_add`).  These are modelled
here from the spec's description of the external collaborator: proleptic
Gregorian calendar, years `-9999..=9999`, a date stored as (year, ordinal
day-of-year), checked arithmetic that fails outside the representable range.
-/

/-- Modelled from the spec: the standard Gregorian leap-year rule
(divisible by 4 and (not divisible by 100 or divisible by 400)) used by the
external date library's calendar conversions. -/
def gregorian_leap_year (y : Int) : Bool :=
  (y % 4 == 0) && (!(y % 100 == 0) || (y % 400 == 0))

/-- Modelled from the spec: days in a month of the proleptic Gregorian
calendar, given the year's leap status. -/
def days_in_month (leap : Bool) (m : Nat) : Nat :=
  if m = 2 then (if leap then 29 else 28)
  else if m = 4 ∨ m = 6 ∨ m = 9 ∨ m = 11 then 30
  else 31

/-- Modelled from the spec: cumulative days before the first day of month `m`
(1-based), given the year's leap status. -/
def days_before_month (leap : Bool) (m : Nat) : Nat :=
  (match m with
   | 1 => 0 | 2 => 31 | 3 => 59 | 4 => 90 | 5 => 120 | 6 => 151
   | 7 => 181 | 8 => 212 | 9 => 243 | 10 => 273 | 11 => 304 | _ => 334)
  + (if leap ∧ 3 ≤ m then 1 else 0)

/-- Modelled from the spec: number of days in year `y`. -/
def days_in_year (y : Int) : Nat :=
  if gregorian_leap_year y then 366 else 365

/-- Modelled from the spec: the external date library's `Date`, stored as a
year and a 1-based ordinal day-of-year, as the `time` crate does. -/
structure Date where
  year : Int
  ordinal : Nat
deriving DecidableEq, Repr

/-- Modelled from the spec: the external date library's `Time` with
nanosecond precision. -/
structure Time where
  hour : Nat
  minute : Nat
  second : Nat
  nanosecond : Nat
deriving DecidableEq, Repr

/-- Modelled from the spec: the external date library's `PrimitiveDateTime`,
a calendar date paired with a time of day (no offset attached). -/
structure PrimitiveDateTime where
  date : Date
  time : Time
deriving DecidableEq, Repr

/-- Modelled from the spec: the external date library's `UtcOffset`, kept
here as a sign plus absolute hour/minute fields (the formatter only consumes
`is_negative()` and the absolute values of `as_hms()`). -/
structure UtcOffset where
  neg : Bool
  oh : Nat
  om : Nat
deriving DecidableEq, Repr

/-- Modelled from the spec: `Date::from_calendar_date` — validated
construction from (year, month, day); fails on an invalid month, an invalid
day for the month/year, or a year outside `-9999..=9999`. -/
def from_calendar_date (y : Int) (m d : Nat) : Option Date :=
  if -9999 ≤ y ∧ y ≤ 9999 ∧ 1 ≤ m ∧ m ≤ 12 ∧ 1 ≤ d ∧
      d ≤ days_in_month (gregorian_leap_year y) m
  then some ⟨y, days_before_month (gregorian_leap_year y) m + d⟩
  else none

/-- Modelled from the spec: the (month, day) decomposition of a 1-based
ordinal day-of-year, by the cumulative-days-before-month thresholds. -/
def ordinal_to_md (leap : Bool) (o : Nat) : Nat × Nat :=
  if o ≤ days_before_month leap 2 then (1, o)
  else if o ≤ days_before_month leap 3 then (2, o - days_before_month leap 2)
  else if o ≤ days_before_month leap 4 then (3, o - days_before_month leap 3)
  else if o ≤ days_before_month leap 5 then (4, o - days_before_month leap 4)
  else if o ≤ days_before_month leap 6 then (5, o - days_before_month leap 5)
  else if o ≤ days_before_month leap 7 then (6, o - days_before_month leap 6)
  else if o ≤ days_before_month leap 8 then (7, o - days_before_month leap 7)
  else if o ≤ days_before_month leap 9 then (8, o - days_before_month leap 8)
  else if o ≤ days_before_month leap 10 then (9, o - days_before_month leap 9)
  else if o ≤ days_before_month leap 11 then (10, o - days_before_month leap 10)
  else if o ≤ days_before_month leap 12 then (11, o - days_before_month leap 11)
  else (12, o - days_before_month leap 12)

/-- Modelled from the spec: `Date::to_calendar_date` — the external date
library's standard (year, ordinal) to (year, month, day) conversion. -/
def Date.to_calendar_date (d : Date) : Int × Nat × Nat :=
  (d.year, ordinal_to_md (gregorian_leap_year d.year) d.ordinal)

/-- Modelled from the spec: `Time::from_hms_nano` — validated construction of
a time of day. -/
def Time.from_hms_nano (h m s ns : Nat) : Option Time :=
  if h ≤ 23 ∧ m ≤ 59 ∧ s ≤ 59 ∧ ns ≤ 999999999
  then some ⟨h, m, s, ns⟩
  else none

/-- Modelled from the spec: normalisation of a (year, signed ordinal) pair
after a day adjustment, borrowing/carrying whole years, failing outside the
representable year range.  The fuel always suffices for the adjustments the
parser can produce (each step moves the ordinal by at least 365). -/
def add_days_fuel : Nat → Int → Int → Option Date
  | 0, _, _ => none
  | fuel + 1, y, o =>
    if o < 1 then add_days_fuel fuel (y - 1) (o + days_in_year (y - 1))
    else if (days_in_year y : Int) < o then add_days_fuel fuel (y + 1) (o - days_in_year y)
    else if -9999 ≤ y ∧ y ≤ 9999 then some ⟨y, o.toNat⟩ else none

/-- Modelled from the spec: `PrimitiveDateTime::checked_add` restricted to
whole-second durations — shift the instant by `secs` seconds, returning
`none` when the result falls outside the representable year range.  The
nanosecond field is untouched by a whole-second shift. -/
def checked_add_seconds (dt : PrimitiveDateTime) (secs : Int) : Option PrimitiveDateTime :=
  let t : Int := dt.time.hour * 3600 + dt.time.minute * 60 + dt.time.second
  let total : Int := t + secs
  let dayAdj : Int := Int.ediv total 86400
  let t2 : Nat := (Int.emod total 86400).toNat
  match add_days_fuel (dayAdj.natAbs + 1) dt.date.year ((dt.date.ordinal : Int) + dayAdj) with
  | none => none
  | some date2 => some ⟨date2, ⟨t2 / 3600, t2 % 3600 / 60, t2 % 60, dt.time.nanosecond⟩⟩

/-! ## Embedding of `src/parse.rs`

Bytes are `Nat` values below 256.  `verify : Bool` models the crate's
`verify` feature flag.  Wrapping machine arithmetic is written with explicit
`% 2^w`.
-/

/-- Embeds `overflows` from `src/parse.rs`: true when some byte of `s` lies
outside the ASCII digit range. -/
def overflows (s : List Nat) : Bool :=
  s.any (fun b => decide (b < 48) || decide (57 < b))

/-- Embeds `overflows4` from `src/parse.rs`: the SWAR check that some byte of
the 32-bit word `x` exceeds 9 or has its high bit set
(`0 != (x.wrapping_add(U * 118) | x) & (U * 128)` with `U = 0x01010101`). -/
def overflows4 (x : Nat) : Bool :=
  decide (Nat.land (Nat.lor ((x + 0x76767676) % 4294967296) x) 0x80808080 ≠ 0)

/-- Embeds `u16::from_le_bytes` applied to a 2-byte chunk. -/
def u16_from_le_bytes (s : List Nat) : Nat :=
  s.getD 0 0 + s.getD 1 0 * 256

/-- Embeds `u32::from_le_bytes` applied to a 4-byte chunk. -/
def u32_from_le_bytes (s : List Nat) : Nat :=
  s.getD 0 0 + s.getD 1 0 * 256 + s.getD 2 0 * 65536 + s.getD 3 0 * 16777216

/-- Embeds `parse_2` from `src/parse.rs`: SWAR decode of two ASCII digits,
with the byte-range check only under the `verify` feature. -/
def parse_2 (verify : Bool) (s : List Nat) : Option Nat :=
  let digits := u16_from_le_bytes s
  if verify ∧ overflows s then none
  else some (Nat.shiftRight (Nat.land digits 0x0f00) 8 + Nat.land digits 0x000f * 10)

/-- Embeds `parse_4` from `src/parse.rs`: SWAR decode of four ASCII digits.
Under `verify` the check is `overflows4(digits - 0x30303030)` with a
wrapping u32 subtraction, written here as an explicit addition mod `2^32`. -/
def parse_4 (verify : Bool) (s : List Nat) : Option Nat :=
  let digits := u32_from_le_bytes s
  if verify ∧ overflows4 ((digits + 0xCFCFCFD0) % 4294967296) then none
  else
    let d1 := Nat.shiftRight (Nat.land digits 0x0f000f00) 8 + Nat.land digits 0x000f000f * 10
    let d2 := Nat.shiftRight (Nat.land d1 0x00ff00ff) 16 + Nat.land d1 0x000000ff * 100
    some (d2 % 65536)

/-- Embeds the generic digit loop of the `FastParse` impl (the fallback for
chunk lengths other than 2 and 4): `num = num * 10 + byte.wrapping_sub(48)`
in the target type's width, with the overflow flag only consulted under
`verify`. -/
def fastparse_loop (verify : Bool) (width : Nat) (s : List Nat) : Option Nat :=
  let r := s.foldl
    (fun (acc : Nat × Bool) byte =>
      let digit := (byte + 208) % 256
      ((acc.1 * 10 + digit) % 2 ^ (8 * width), acc.2 || decide (9 < digit)))
    (0, false)
  if verify ∧ r.2 = true then none else some r.1

/-- Embeds `<$ty as FastParse>::parse`: dispatch on the chunk length to
`parse_2` / `parse_4` (followed by the `as $ty` truncating cast of width
`width` bytes), falling back to the generic digit loop. -/
def fastparse (verify : Bool) (width : Nat) (s : List Nat) : Option Nat :=
  if s.length = 2 then (parse_2 verify s).map (· % 2 ^ (8 * width))
  else if s.length = 4 then (parse_4 verify s).map (· % 2 ^ (8 * width))
  else fastparse_loop verify width s

/-- Embeds the Rust `b.get(offset..offset + len)`: the in-bounds sub-slice, or `none`
when the range exceeds the input. -/
def slice_bytes (b : List Nat) (offset len : Nat) : Option (List Nat) :=
  if offset + len ≤ b.length then some ((b.drop offset).take len) else none

/-- Embeds the `parse!` macro of `parse_iso8601`: fetch `len` bytes at
`offset`, decode them with `FastParse` at type width `width`, advance past
them, and additionally consume one following byte when it equals `eat`
(the macro's optional `$eat_byte` literal pattern). -/
def parse_step (verify : Bool) (width len : Nat) (eat : Option Nat) (b : List Nat)
    (offset : Nat) : Option (Nat × Nat) :=
  match slice_bytes b offset len with
  | none => none
  | some chunk =>
    match fastparse verify width chunk with
    | none => none
    | some res =>
      match eat with
      | none => some (res, offset + len)
      | some e =>
        match b[offset + len]? with
        | some c => if c = e then some (res, offset + len + 1) else some (res, offset + len)
        | none => some (res, offset + len)

/-- Fuel-indexed body of the fractional-second `while` loop: consume decimal
digits, accumulating `digit * factor` nanoseconds with the factor divided by
ten at each step, stopping at the first non-digit
(`d = byte.wrapping_sub(48)`, stop when `d > 9`).  The fuel only bounds the
recursion; `frac_loop_eq` below shows the pair computes the loop itself. -/
def frac_loop_fuel : Nat → List Nat → Nat → Nat → Nat → Nat × Nat
  | 0, _, offset, _, nano => (nano, offset)
  | fuel + 1, b, offset, factor, nano =>
    match b[offset]? with
    | none => (nano, offset)
    | some c =>
      if 9 < (c + 208) % 256 then (nano, offset)
      else frac_loop_fuel fuel b (offset + 1) (factor / 10) (nano + (c + 208) % 256 * factor)

/-- Embeds the fractional-second `while` loop of `parse_iso8601`.  The loop
advances one byte per step, so `b.length - offset` steps always suffice. -/
def frac_loop (b : List Nat) (offset factor nano : Nat) : Nat × Nat :=
  frac_loop_fuel (b.length - offset) b offset factor nano

/-- Embeds the fraction lookahead of `parse_iso8601` (lines 209–225): when
the byte after the seconds is a full stop or comma the fraction loop runs,
otherwise nothing is consumed.  Returns (nanosecond, offset). -/
def parse_frac (b : List Nat) (offset : Nat) : Nat × Nat :=
  match b[offset]? with
  | some c2 => if c2 = 46 ∨ c2 = 44 then frac_loop b (offset + 1) 100000000 0 else (0, offset)
  | none => (0, offset)

/-- Embeds lines 203–240 of `parse_iso8601`: the optional seconds field with
defaults 0/0, the optional fraction introduced by a full stop or comma, and
the leap-second clamp (strict mode rejects a second above 60; any second
above 59 is clamped to 59 with nanosecond 999999999). Returns
(second, nanosecond, offset). -/
def parse_iso8601_seconds (verify : Bool) (b : List Nat) (offset : Nat) :
    Option (Nat × Nat × Nat) :=
  match b[offset]? with
  | none => some (0, 0, offset)
  | some c =>
    if 48 ≤ c ∧ c ≤ 57 then
      match parse_step verify 1 2 none b offset with
      | none => none
      | some (second, offset) =>
        let fr : Nat × Nat := parse_frac b offset
        if 59 < second then
          if verify ∧ 60 < second then none
          else some (59, 999999999, fr.2)
        else some (second, fr.1, fr.2)
    else some (0, 0, offset)

/-- Embeds lines 249–313 of `parse_iso8601`: the timezone suffix.  `Z`/`z`
end the input unchanged; `+`, `-` or the UTF-8 bytes of U+2212 introduce a
2+2-digit offset that is added (for `+`) or subtracted (otherwise) to the
parsed local time through the checked calendar addition; `U`/`u` followed by
a case-insensitive `tc` is accepted like `Z`.  Any leftover bytes fail the
parse. -/
def parse_iso8601_tz (verify : Bool) (b : List Nat) (offset0 : Nat)
    (date_time : PrimitiveDateTime) : Option PrimitiveDateTime :=
  let tz := b[offset0]?
  let offset := offset0 + 1
  match tz with
  | none => none
  | some c =>
    if c = 90 ∨ c = 122 then
      if offset ≠ b.length then none else some date_time
    else if c = 43 ∨ c = 45 ∨ c = 226 then
      let us : Option Nat :=
        if c = 226 then
          if slice_bytes b offset 2 = some [136, 146] then some (offset + 2) else none
        else some offset
      match us with
      | none => none
      | some offset =>
        match parse_step verify 1 2 (some 58) b offset with
        | none => none
        | some (offH, offset) =>
          match parse_step verify 1 2 none b offset with
          | none => none
          | some (offM, offset) =>
            let offset_seconds : Int := 3600 * offH + 60 * offM
            let offset_seconds := if c ≠ 43 then -offset_seconds else offset_seconds
            match checked_add_seconds date_time offset_seconds with
            | none => none
            | some dt2 => if offset ≠ b.length then none else some dt2
    else if c = 85 ∨ c = 117 then
      match slice_bytes b offset 2 with
      | none => none
      | some tc =>
        if (tc.zip [116, 99]).all (fun p => Nat.lor p.1 32 = p.2) then
          if offset + 2 ≠ b.length then none else some date_time
        else none
    else none

/-- Embeds the time half of `parse_iso8601` (lines 195–247): hour and minute
with optional colons, the seconds/fraction block, `Time::from_hms_nano`, and
the timezone suffix. -/
def parse_iso8601_time (verify : Bool) (b : List Nat) (offset : Nat) (ymd : Date) :
    Option PrimitiveDateTime :=
  match parse_step verify 1 2 (some 58) b offset with
  | none => none
  | some (hour, offset) =>
    match parse_step verify 1 2 (some 58) b offset with
    | none => none
    | some (minute, offset) =>
      match parse_iso8601_seconds verify b offset with
      | none => none
      | some (second, nanosecond, offset) =>
        match Time.from_hms_nano hour minute second nanosecond with
        | none => none
        | some time => parse_iso8601_tz verify b offset ⟨ymd, time⟩

/-- Embeds `parse_iso8601` from `src/parse.rs`.  A leading ASCII `-` (only)
negates the 4-digit year; month and day follow with optional `-` separators;
the calendar date is validated; a date-only input succeeds at midnight;
otherwise exactly one of `T`/`t`/space/`_` introduces the time half. -/
def parse_iso8601 (verify : Bool) (b : List Nat) : Option PrimitiveDateTime :=
  let negate : Bool := if b[0]? = some 45 then true else false
  let offset : Nat := if negate then 1 else 0
  match parse_step verify 2 4 (some 45) b offset with
  | none => none
  | some (yearRaw, offset) =>
    let year : Int := if negate then -(yearRaw : Int) else (yearRaw : Int)
    match parse_step verify 1 2 (some 45) b offset with
    | none => none
    | some (month, offset) =>
      match parse_step verify 1 2 none b offset with
      | none => none
      | some (day, offset) =>
        if 1 ≤ month ∧ month ≤ 12 then
          match from_calendar_date year month day with
          | none => none
          | some ymd =>
            match b[offset]? with
            | none => some ⟨ymd, ⟨0, 0, 0, 0⟩⟩
            | some tsep =>
              if tsep = 84 ∨ tsep = 116 ∨ tsep = 32 ∨ tsep = 95 then
                parse_iso8601_time verify b (offset + 1) ymd
              else none
        else none

/-! ## Embedding of `src/format.rs` and `src/ts_str.rs` -/

/-- Embeds `is_leap_year` from `src/format.rs`: the crate's hot-path test
`(year % 4 == 0) & ((year % 25 != 0) | (year % 16 == 0))`, with Rust's
truncated `%` on `i32` written as `Int.tmod`. -/
def is_leap_year (year : Int) : Bool :=
  (year.tmod 4 == 0) && (!(year.tmod 25 == 0) || (year.tmod 16 == 0))

/-- Embeds the `_mm256_set_epi16` leap/non-leap day-threshold vector of
`to_calendar_date_avx2`, listed here from lane 0 upward (the intrinsic lists
its arguments from lane 15 downward). -/
def avx2_days (leap : Bool) : List Nat :=
  if leap then [0, 31, 60, 91, 121, 152, 182, 213, 244, 274, 305, 335, 32767, 32767, 32767, 32767]
  else [0, 31, 59, 90, 120, 151, 181, 212, 243, 273, 304, 334, 32767, 32767, 32767, 32767]

/-- Embeds `_mm_movemask_epi8` over 16-bit lanes: bit `2j` is the high bit of
lane `j`'s low byte and bit `2j+1` the high bit of its high byte. -/
def movemask16 (lanes : List Nat) : Nat :=
  (List.range lanes.length).foldl
    (fun acc j =>
      let lane := lanes.getD j 0
      acc + (if 128 ≤ lane % 256 then Nat.shiftLeft 1 (2 * j) else 0)
          + (if 128 ≤ lane / 256 % 256 then Nat.shiftLeft 1 (2 * j + 1) else 0))
    0

/-- Embeds `_mm256_cmpeq_epi16(v, zero)`: each 16-bit lane becomes `0xFFFF`
when it is zero and `0` otherwise. -/
def cmpeq_zero (lanes : List Nat) : List Nat :=
  lanes.map (fun x => if x = 0 then 65535 else 0)

/-- Embeds `u32::trailing_zeros` (32 for the zero word). -/
def u32_trailing_zeros (x : Nat) : Nat :=
  ((List.range 32).find? (fun i => Nat.shiftRight x i % 2 = 1)).getD 32

/-- Embeds `to_calendar_date_avx2` from `src/format.rs`: saturating-subtract
the day-of-year from each cumulative threshold, take the first zero lane as
the month, and read the day-of-month from the preceding lane; the final
`as u8` casts are written as `% 256`. -/
def to_calendar_date_avx2 (date : Date) : Int × Nat × Nat :=
  let year := date.year
  let days := (avx2_days (is_leap_year year)).map (fun d => date.ordinal - d)
  let mask := movemask16 (cmpeq_zero days)
  let month := u32_trailing_zeros mask / 2
  let day := days.getD (month - 1) 0
  (year, month % 256, day % 256)

/-- Embeds the low eight lanes (`ld`) of `to_calendar_date_sse2`. -/
def sse2_ld (leap : Bool) : List Nat :=
  if leap then [0, 31, 60, 91, 121, 152, 182, 213]
  else [0, 31, 59, 90, 120, 151, 181, 212]

/-- Embeds the high eight lanes (`hd`) of `to_calendar_date_sse2`. -/
def sse2_hd (leap : Bool) : List Nat :=
  if leap then [244, 274, 305, 335, 32767, 32767, 32767, 32767]
  else [243, 273, 304, 334, 32767, 32767, 32767, 32767]

/-- Embeds `to_calendar_date_sse2` from `src/format.rs`: the same probe as
the AVX2 path split over two 128-bit vectors, with the two byte masks
recombined as `(hm << 16) | lm` and the day read from the transmuted
`[ld, hd]` lane array. -/
def to_calendar_date_sse2 (date : Date) : Int × Nat × Nat :=
  let year := date.year
  let hd := (sse2_hd (is_leap_year year)).map (fun d => date.ordinal - d)
  let ld := (sse2_ld (is_leap_year year)).map (fun d => date.ordinal - d)
  let hm := movemask16 (cmpeq_zero hd)
  let lm := movemask16 (cmpeq_zero ld)
  let mask := Nat.lor (Nat.shiftLeft hm 16) lm
  let month := u32_trailing_zeros mask / 2
  let day := (ld ++ hd).getD (month - 1) 0
  (year, month % 256, day % 256)

/-- Embeds the scalar fallback of `to_calendar_date` in `src/format.rs` (the
build without SIMD target features): `date.to_calendar_date()` from the
external date library, with the month narrowed to `u8`. -/
def to_calendar_date (date : Date) : Int × Nat × Nat :=
  Date.to_calendar_date date

/-- Embeds the `write_num!` macro of `do_format`: the `len` ASCII digit bytes
it stores for `value` (two digits per division-loop iteration from the right,
plus one leading digit when `len` is odd). -/
def write_num : Nat → Nat → List Nat
  | _, 0 => []
  | v, 1 => [v + 48]
  | v, n + 2 => write_num (v / 100) n ++ [v % 100 / 10 + 48, v % 100 % 10 + 48]

/-- Models `buf[pos..pos + seg.len()].copy_from_slice(seg)`: overwrite the
bytes of `buf` starting at `pos` with `seg` (all uses are in bounds). -/
def splice : Nat → List Nat → List Nat → List Nat
  | _, buf, [] => buf
  | _, [], _ => []
  | 0, _ :: buf, s :: seg => s :: splice 0 buf seg
  | p + 1, x :: buf, seg => x :: splice p buf seg

/-- Embeds `template` from `src/ts_str.rs`: the pre-filled skeleton buffer
for each of the 40 layout combinations (full `F`, offset `O`, sub-second
precision `P`); other `P` values are unreachable by the layout constraint. -/
def template (F O : Bool) (P : Nat) : List Nat :=
  match F, O, P with
  | true, true, 0 => [43, 48, 48, 48, 48, 45, 48, 48, 45, 48, 48, 84, 48, 48, 58, 48, 48, 58, 48, 48, 43, 48, 48, 58, 48, 48]
  | true, true, 1 => [43, 48, 48, 48, 48, 45, 48, 48, 45, 48, 48, 84, 48, 48, 58, 48, 48, 58, 48, 48, 46, 48, 43, 48, 48, 58, 48, 48]
  | true, true, 2 => [43, 48, 48, 48, 48, 45, 48, 48, 45, 48, 48, 84, 48, 48, 58, 48, 48, 58, 48, 48, 46, 48, 48, 43, 48, 48, 58, 48, 48]
  | true, true, 3 => [43, 48, 48, 48, 48, 45, 48, 48, 45, 48, 48, 84, 48, 48, 58, 48, 48, 58, 48, 48, 46, 48, 48, 48, 43, 48, 48, 58, 48, 48]
  | true, true, 4 => [43, 48, 48, 48, 48, 45, 48, 48, 45, 48, 48, 84, 48, 48, 58, 48, 48, 58, 48, 48, 46, 48, 48, 48, 48, 43, 48, 48, 58, 48, 48]
  | true, true, 5 => [43, 48, 48, 48, 48, 45, 48, 48, 45, 48, 48, 84, 48, 48, 58, 48, 48, 58, 48, 48, 46, 48, 48, 48, 48, 48, 43, 48, 48, 58, 48, 48]
  | true, true, 6 => [43, 48, 48, 48, 48, 45, 48, 48, 45, 48, 48, 84, 48, 48, 58, 48, 48, 58, 48, 48, 46, 48, 48, 48, 48, 48, 48, 43, 48, 48, 58, 48, 48]
  | true, true, 7 => [43, 48, 48, 48, 48, 45, 48, 48, 45, 48, 48, 84, 48, 48, 58, 48, 48, 58, 48, 48, 46, 48, 48, 48, 48, 48, 48, 48, 43, 48, 48, 58, 48, 48]
  | true, true, 8 => [43, 48, 48, 48, 48, 45, 48, 48, 45, 48, 48, 84, 48, 48, 58, 48, 48, 58, 48, 48, 46, 48, 48, 48, 48, 48, 48, 48, 48, 43, 48, 48, 58, 48, 48]
  | true, true, 9 => [43, 48, 48, 48, 48, 45, 48, 48, 45, 48, 48, 84, 48, 48, 58, 48, 48, 58, 48, 48, 46, 48, 48, 48, 48, 48, 48, 48, 48, 48, 43, 48, 48, 58, 48, 48]
  | true, false, 0 => [43, 48, 48, 48, 48, 45, 48, 48, 45, 48, 48, 84, 48, 48, 58, 48, 48, 58, 48, 48, 90]
  | true, false, 1 => [43, 48, 48, 48, 48, 45, 48, 48, 45, 48, 48, 84, 48, 48, 58, 48, 48, 58, 48, 48, 46, 48, 90]
  | true, false, 2 => [43, 48, 48, 48, 48, 45, 48, 48, 45, 48, 48, 84, 48, 48, 58, 48, 48, 58, 48, 48, 46, 48, 48, 90]
  | true, false, 3 => [43, 48, 48, 48, 48, 45, 48, 48, 45, 48, 48, 84, 48, 48, 58, 48, 48, 58, 48, 48, 46, 48, 48, 48, 90]
  | true, false, 4 => [43, 48, 48, 48, 48, 45, 48, 48, 45, 48, 48, 84, 48, 48, 58, 48, 48, 58, 48, 48, 46, 48, 48, 48, 48, 90]
  | true, false, 5 => [43, 48, 48, 48, 48, 45, 48, 48, 45, 48, 48, 84, 48, 48, 58, 48, 48, 58, 48, 48, 46, 48, 48, 48, 48, 48, 90]
  | true, false, 6 => [43, 48, 48, 48, 48, 45, 48, 48, 45, 48, 48, 84, 48, 48, 58, 48, 48, 58, 48, 48, 46, 48, 48, 48, 48, 48, 48, 90]
  | true, false, 7 => [43, 48, 48, 48, 48, 45, 48, 48, 45, 48, 48, 84, 48, 48, 58, 48, 48, 58, 48, 48, 46, 48, 48, 48, 48, 48, 48, 48, 90]
  | true, false, 8 => [43, 48, 48, 48, 48, 45, 48, 48, 45, 48, 48, 84, 48, 48, 58, 48, 48, 58, 48, 48, 46, 48, 48, 48, 48, 48, 48, 48, 48, 90]
  | true, false, 9 => [43, 48, 48, 48, 48, 45, 48, 48, 45, 48, 48, 84, 48, 48, 58, 48, 48, 58, 48, 48, 46, 48, 48, 48, 48, 48, 48, 48, 48, 48, 90]
  | false, true, 0 => [43, 48, 48, 48, 48, 48, 48, 48, 48, 84, 48, 48, 48, 48, 48, 48, 43, 48, 48, 58, 48, 48]
  | false, true, 1 => [43, 48, 48, 48, 48, 48, 48, 48, 48, 84, 48, 48, 48, 48, 48, 48, 46, 48, 43, 48, 48, 58, 48, 48]
  | false, true, 2 => [43, 48, 48, 48, 48, 48, 48, 48, 48, 84, 48, 48, 48, 48, 48, 48, 46, 48, 48, 43, 48, 48, 58, 48, 48]
  | false, true, 3 => [43, 48, 48, 48, 48, 48, 48, 48, 48, 84, 48, 48, 48, 48, 48, 48, 46, 48, 48, 48, 43, 48, 48, 58, 48, 48]
  | false, true, 4 => [43, 48, 48, 48, 48, 48, 48, 48, 48, 84, 48, 48, 48, 48, 48, 48, 46, 48, 48, 48, 48, 43, 48, 48, 58, 48, 48]
  | false, true, 5 => [43, 48, 48, 48, 48, 48, 48, 48, 48, 84, 48, 48, 48, 48, 48, 48, 46, 48, 48, 48, 48, 48, 43, 48, 48, 58, 48, 48]
  | false, true, 6 => [43, 48, 48, 48, 48, 48, 48, 48, 48, 84, 48, 48, 48, 48, 48, 48, 46, 48, 48, 48, 48, 48, 48, 43, 48, 48, 58, 48, 48]
  | false, true, 7 => [43, 48, 48, 48, 48, 48, 48, 48, 48, 84, 48, 48, 48, 48, 48, 48, 46, 48, 48, 48, 48, 48, 48, 48, 43, 48, 48, 58, 48, 48]
  | false, true, 8 => [43, 48, 48, 48, 48, 48, 48, 48, 48, 84, 48, 48, 48, 48, 48, 48, 46, 48, 48, 48, 48, 48, 48, 48, 48, 43, 48, 48, 58, 48, 48]
  | false, true, 9 => [43, 48, 48, 48, 48, 48, 48, 48, 48, 84, 48, 48, 48, 48, 48, 48, 46, 48, 48, 48, 48, 48, 48, 48, 48, 48, 43, 48, 48, 58, 48, 48]
  | false, false, 0 => [43, 48, 48, 48, 48, 48, 48, 48, 48, 84, 48, 48, 48, 48, 48, 48, 90]
  | false, false, 1 => [43, 48, 48, 48, 48, 48, 48, 48, 48, 84, 48, 48, 48, 48, 48, 48, 46, 48, 90]
  | false, false, 2 => [43, 48, 48, 48, 48, 48, 48, 48, 48, 84, 48, 48, 48, 48, 48, 48, 46, 48, 48, 90]
  | false, false, 3 => [43, 48, 48, 48, 48, 48, 48, 48, 48, 84, 48, 48, 48, 48, 48, 48, 46, 48, 48, 48, 90]
  | false, false, 4 => [43, 48, 48, 48, 48, 48, 48, 48, 48, 84, 48, 48, 48, 48, 48, 48, 46, 48, 48, 48, 48, 90]
  | false, false, 5 => [43, 48, 48, 48, 48, 48, 48, 48, 48, 84, 48, 48, 48, 48, 48, 48, 46, 48, 48, 48, 48, 48, 90]
  | false, false, 6 => [43, 48, 48, 48, 48, 48, 48, 48, 48, 84, 48, 48, 48, 48, 48, 48, 46, 48, 48, 48, 48, 48, 48, 90]
  | false, false, 7 => [43, 48, 48, 48, 48, 48, 48, 48, 48, 84, 48, 48, 48, 48, 48, 48, 46, 48, 48, 48, 48, 48, 48, 48, 90]
  | false, false, 8 => [43, 48, 48, 48, 48, 48, 48, 48, 48, 84, 48, 48, 48, 48, 48, 48, 46, 48, 48, 48, 48, 48, 48, 48, 48, 90]
  | false, false, 9 => [43, 48, 48, 48, 48, 48, 48, 48, 48, 84, 48, 48, 48, 48, 48, 48, 46, 48, 48, 48, 48, 48, 48, 48, 48, 48, 90]
  | _, _, _ => []

/-- Embeds the `StrLen` type-level length formula of `src/ts_str.rs`:
`P + 17`, plus one for the full stop when `P > 0`, plus four punctuation
bytes when full, plus five offset bytes when an offset is present. -/
def StrLen (F O : Bool) (P : Nat) : Nat :=
  (P + 17) + (if 0 < P then 1 else 0) + (if F then 4 else 0) + (if O then 5 else 0)

/-- Shorthand for the conditional `pos` increments of `write_num!`. -/
def bool1 (b : Bool) : Nat := if b then 1 else 0

/-- Embeds `do_format` from `src/format.rs`: decompose the timestamp, start
from the layout's template, write the sign and every digit field at the
positions the `write_num!` macro computes (each write skips one baked-in
separator byte when the layout is full), then the truncated sub-second value
and the offset fields. -/
def do_format (F O : Bool) (P : Nat) (ts : PrimitiveDateTime) (offset : UtcOffset) : List Nat :=
  let ymd := to_calendar_date ts.date
  let year0 : Int := ymd.1
  let month : Nat := ymd.2.1
  let day : Nat := ymd.2.2
  let hour := ts.time.hour
  let minute := ts.time.minute
  let second := ts.time.second
  let nanoseconds := ts.time.nanosecond
  let buf0 := template F O P
  let year : Nat := (if year0 < 0 then -year0 else year0).toNat
  let buf1 := if year0 < 0 then buf0.set 0 45 else buf0
  let pos := 1
  let buf2 := splice pos buf1 (write_num year 4)
  let pos := pos + 4 + bool1 F
  let buf3 := splice pos buf2 (write_num month 2)
  let pos := pos + 2 + bool1 F
  let buf4 := splice pos buf3 (write_num day 2)
  let pos := pos + 2 + bool1 F
  let pos := if !F then pos + 1 else pos
  let buf5 := splice pos buf4 (write_num hour 2)
  let pos := pos + 2 + bool1 F
  let buf6 := splice pos buf5 (write_num minute 2)
  let pos := pos + 2 + bool1 F
  let buf7 := splice pos buf6 (write_num second 2)
  let pos := pos + 2 + bool1 F
  let pos := if !F ∧ 0 < P then pos + 1 else pos
  let fr : List Nat :=
    match P with
    | 1 => write_num (nanoseconds / 100000000) 1
    | 2 => write_num (nanoseconds / 10000000) 2
    | 3 => write_num (nanoseconds / 1000000) 3
    | 4 => write_num (nanoseconds / 100000) 4
    | 5 => write_num (nanoseconds / 10000) 5
    | 6 => write_num (nanoseconds / 1000) 6
    | 7 => write_num (nanoseconds / 100) 7
    | 8 => write_num (nanoseconds / 10) 8
    | 9 => write_num (nanoseconds / 1) 9
    | _ => []
  let buf8 := if 1 ≤ P ∧ P ≤ 9 then splice pos buf7 fr else buf7
  let pos := if 1 ≤ P ∧ P ≤ 9 then pos + P + bool1 F else pos
  if O then
    let pos := if !F then pos + 1 else pos
    let buf9 := if offset.neg then buf8.set (pos - 1) 45 else buf8
    let buf10 := splice pos buf9 (write_num offset.oh 2)
    let pos := pos + 2 + bool1 F
    let pos := if !F then pos + 1 else pos
    splice pos buf10 (write_num offset.om 2)
  else buf8

/-- Embeds the `AsRef<str>` view of `TimestampStr` in `src/ts_str.rs`: the
leading byte is dropped exactly when it is the `+` sign. -/
def timestamp_str_view (buf : List Nat) : List Nat :=
  if buf[0]? = some 43 then buf.drop 1 else buf

/-! ## Derived descriptions of the byte strings the two algorithms exchange

`format_bytes` restates the formatted buffer as one concatenation of digit
runs and separators; `render_dt` describes the family of inputs the parser
theorems quantify over.  Both are compared against `do_format` /
`parse_iso8601` by theorems below, never assumed.
-/

/-- Raw digit values of the `write_num!` output (each output byte is a digit
value plus 48). -/
def num_digits : Nat → Nat → List Nat
  | _, 0 => []
  | v, 1 => [v]
  | v, n + 2 => num_digits (v / 100) n ++ [v % 100 / 10, v % 100 % 10]

/-- Value accumulated by the parser's fractional-second loop over a digit
list, starting from a given factor (divided by ten at each digit). -/
def fracval : Nat → List Nat → Nat
  | _, [] => 0
  | factor, d :: ds => d * factor + fracval (factor / 10) ds

/-- Separator byte present only in the full (punctuated) layout. -/
def sepIf (F : Bool) (c : Nat) : List Nat := if F then [c] else []

/-- Bytes of an optional fractional part: a dot byte plus raw digit values,
each digit rendered as its ASCII byte. -/
def frac_bytes : Option (Nat × List Nat) → List Nat
  | none => []
  | some (dc, ds) => dc :: ds.map (· + 48)

/-- Nanosecond value the parser accumulates for an optional fractional
part. -/
def frac_value : Option (Nat × List Nat) → Nat
  | none => 0
  | some (_, ds) => fracval 100000000 ds

/-- Byte length of an optional fractional part. -/
def frac_len : Option (Nat × List Nat) → Nat
  | none => 0
  | some (_, ds) => 1 + ds.length

/-- Timezone suffix shapes fed to the parser: a `Z`, or a signed numeric
offset whose sign byte is `+`, `-` or the UTF-8 Unicode minus sign. -/
inductive TzForm where
  | zed : TzForm
  | offs (sign : Nat) (colon : Bool) (oh om : Nat) : TzForm
deriving DecidableEq, Repr

/-- Bytes of a timezone suffix shape. -/
def tz_bytes : TzForm → List Nat
  | .zed => [90]
  | .offs sign colon oh om =>
    (if sign = 226 then [226, 136, 146] else [sign]) ++ write_num oh 2 ++
      sepIf colon 58 ++ write_num om 2

/-- Effect of a timezone suffix shape on the parsed local time, as
`parse_iso8601` applies it: add the literal offset for `+`, subtract it for
the other sign bytes, through the checked calendar addition. -/
def tz_result : TzForm → PrimitiveDateTime → Option PrimitiveDateTime
  | .zed, dt => some dt
  | .offs sign _ oh om, dt =>
    checked_add_seconds dt
      (if sign ≠ 43 then -(3600 * (oh : Int) + 60 * om) else 3600 * (oh : Int) + 60 * om)

/-- Input family for the parser theorems: an optional leading `-`, four year
digits, month and day (optionally punctuated), a `T`, hour/minute/second
(optionally punctuated), an optional fraction (a dot byte plus raw digit
values), and a timezone suffix shape. -/
def render_dt (F : Bool) (y : Int) (m d h mi sec : Nat) (frac : Option (Nat × List Nat))
    (tz : TzForm) : List Nat :=
  (if y < 0 then [45] else []) ++ write_num y.natAbs 4 ++ sepIf F 45 ++ write_num m 2 ++
    sepIf F 45 ++ write_num d 2 ++ [84] ++ write_num h 2 ++ sepIf F 58 ++ write_num mi 2 ++
    sepIf F 58 ++ write_num sec 2 ++ frac_bytes frac ++ tz_bytes tz

/-- Concatenation form of the formatted buffer (sign byte included), compared
with `do_format` by the shape theorem below. -/
def format_bytes (F O : Bool) (P : Nat) (y : Int) (m d h mi s ns : Nat) (off : UtcOffset) :
    List Nat :=
  (if y < 0 then [45] else [43]) ++ write_num y.natAbs 4 ++ sepIf F 45 ++ write_num m 2 ++
    sepIf F 45 ++ write_num d 2 ++ [84] ++ write_num h 2 ++ sepIf F 58 ++ write_num mi 2 ++
    sepIf F 58 ++ write_num s 2 ++
    (if 1 ≤ P ∧ P ≤ 9 then 46 :: write_num (ns / 10 ^ (9 - P)) P else []) ++
    (if O then (if off.neg then [45] else [43]) ++ write_num off.oh 2 ++ [58] ++ write_num off.om 2
     else [90])

/-! ## Helper lemmas: digit runs, list indexing at an appended prefix -/

theorem write_num_length (v n : Nat) : (write_num v n).length = n := by
  induction n using Nat.strong_induction_on generalizing v with
  | _ n ih =>
    match n with
    | 0 => rfl
    | 1 => rfl
    | n + 2 =>
      simp only [write_num, List.length_append, ih n (by omega) (v / 100)]
      rfl

theorem write_num_eq_digits (v n : Nat) : write_num v n = (num_digits v n).map (· + 48) := by
  induction n using Nat.strong_induction_on generalizing v with
  | _ n ih =>
    match n with
    | 0 => rfl
    | 1 => rfl
    | n + 2 =>
      simp only [write_num, num_digits, List.map_append, ih n (by omega) (v / 100)]
      rfl

theorem num_digits_length (v n : Nat) : (num_digits v n).length = n := by
  have h := write_num_length v n
  rw [write_num_eq_digits, List.length_map] at h
  exact h

theorem num_digits_lt_ten (v n : Nat) (hv : v < 10 ^ n) :
    ∀ d ∈ num_digits v n, d < 10 := by
  induction n using Nat.strong_induction_on generalizing v with
  | _ n ih =>
    match n with
    | 0 => intro d hd; simp [num_digits] at hd
    | 1 =>
      intro d hd
      simp only [num_digits, List.mem_singleton] at hd
      omega
    | n + 2 =>
      intro d hd
      have hpow : (10 : Nat) ^ (n + 2) = 10 ^ n * 100 := by ring
      simp only [num_digits, List.mem_append, List.mem_cons, List.not_mem_nil, or_false] at hd
      rcases hd with hd | hd | hd
      · exact ih n (by omega) (v / 100) (by omega) d hd
      · subst hd; omega
      · subst hd; omega

theorem write_num_two (v : Nat) : write_num v 2 = [v % 100 / 10 + 48, v % 100 % 10 + 48] := rfl

theorem write_num_four (v : Nat) :
    write_num v 4 = [v / 100 % 100 / 10 + 48, v / 100 % 100 % 10 + 48,
      v % 100 / 10 + 48, v % 100 % 10 + 48] := rfl

theorem drop_len_append (l r : List Nat) : (l ++ r).drop l.length = r := by
  induction l with
  | nil => rfl
  | cons x xs ih => simpa using ih

theorem take_len_append (l r : List Nat) : (l ++ r).take l.length = l := by
  induction l with
  | nil => rfl
  | cons x xs ih => simpa using ih

theorem getElem_opt_append_left (l r : List Nat) (i : Nat) :
    (l ++ r)[l.length + i]? = r[i]? := by
  induction l with
  | nil => simp
  | cons x xs ih =>
    have h : (x :: xs).length + i = (xs.length + i) + 1 := by
      simp only [List.length_cons]
      omega
    rw [List.cons_append, h, List.getElem?_cons_succ, ih]

theorem getElem_opt_append_head (l r : List Nat) : (l ++ r)[l.length]? = r[0]? := by
  simpa using getElem_opt_append_left l r 0

theorem slice_bytes_append (pre chunk rest : List Nat) :
    slice_bytes (pre ++ (chunk ++ rest)) pre.length chunk.length = some chunk := by
  have hb : pre.length + chunk.length ≤ (pre ++ (chunk ++ rest)).length := by
    simp only [List.length_append]
    omega
  simp only [slice_bytes, if_pos hb]
  rw [drop_len_append, take_len_append]

/-! ## Helper lemmas: the fast digit decoders on digit bytes -/

theorem parse_2_digits :
    ∀ verify : Bool, ∀ a < 10, ∀ b < 10,
      parse_2 verify [a + 48, b + 48] = some (a * 10 + b) := by decide

set_option maxHeartbeats 4000000 in
theorem parse_4_digits :
    ∀ verify : Bool, ∀ a < 10, ∀ b < 10, ∀ c < 10, ∀ d < 10,
      parse_4 verify [a + 48, b + 48, c + 48, d + 48] =
        some (a * 1000 + b * 100 + c * 10 + d) := by decide

theorem fastparse_write_num_2 (verify : Bool) (w : Nat) (hw : 1 ≤ w) (v : Nat) (hv : v ≤ 99) :
    fastparse verify w (write_num v 2) = some v := by
  have hlen : (write_num v 2).length = 2 := write_num_length v 2
  rw [write_num_two] at hlen ⊢
  have h2 := parse_2_digits verify (v % 100 / 10) (by omega) (v % 100 % 10) (by omega)
  have hval : v % 100 / 10 * 10 + v % 100 % 10 = v := by omega
  rw [hval] at h2
  have hpow : (99 : Nat) < 2 ^ (8 * w) := by
    calc (99 : Nat) < 256 := by omega
    _ = 2 ^ (8 * 1) := by norm_num
    _ ≤ 2 ^ (8 * w) := Nat.pow_le_pow_right (by omega) (by omega)
  simp [fastparse, h2, Nat.mod_eq_of_lt (by omega : v < 2 ^ (8 * w))]

theorem fastparse_write_num_4 (verify : Bool) (w : Nat) (hw : 2 ≤ w) (v : Nat) (hv : v ≤ 9999) :
    fastparse verify w (write_num v 4) = some v := by
  rw [write_num_four]
  have h4 := parse_4_digits verify (v / 100 % 100 / 10) (by omega) (v / 100 % 100 % 10) (by omega)
    (v % 100 / 10) (by omega) (v % 100 % 10) (by omega)
  have hval : v / 100 % 100 / 10 * 1000 + v / 100 % 100 % 10 * 100 + v % 100 / 10 * 10 + v % 100 % 10 = v := by
    omega
  rw [hval] at h4
  have hpow : (9999 : Nat) < 2 ^ (8 * w) := by
    calc (9999 : Nat) < 65536 := by omega
    _ = 2 ^ (8 * 2) := by norm_num
    _ ≤ 2 ^ (8 * w) := Nat.pow_le_pow_right (by omega) (by omega)
  simp [fastparse, h4, Nat.mod_eq_of_lt (by omega : v < 2 ^ (8 * w))]

/-! ## Stepping lemmas for the parser on rendered inputs -/

theorem getElem_opt_append2 (pre chunk rest : List Nat) :
    (pre ++ (chunk ++ rest))[pre.length + chunk.length]? = rest[0]? := by
  have h1 := getElem_opt_append_head (pre ++ chunk) rest
  rw [List.length_append] at h1
  rw [← List.append_assoc]
  exact h1

theorem parse_step_sep (verify : Bool) (w : Nat) (b pre chunk sep rest : List Nat) (eat v : Nat)
    (hb : b = pre ++ (chunk ++ (sep ++ rest)))
    (hfp : fastparse verify w chunk = some v)
    (hsep : sep = [eat] ∨ (sep = [] ∧ ∀ x, rest[0]? = some x → x ≠ eat)) :
    parse_step verify w chunk.length (some eat) b pre.length =
      some (v, pre.length + chunk.length + sep.length) := by
  subst hb
  rcases hsep with hsep | ⟨hsep, hne⟩
  · subst hsep
    simp only [List.cons_append, List.nil_append, List.length_cons, List.length_nil]
    have hs := slice_bytes_append pre chunk (eat :: rest)
    have hidx := getElem_opt_append2 pre chunk (eat :: rest)
    simp only [List.getElem?_cons_zero] at hidx
    simp only [parse_step, hs, hfp, hidx, if_pos rfl]
    simp
  · subst hsep
    simp only [List.nil_append, List.length_nil, Nat.add_zero]
    have hs := slice_bytes_append pre chunk rest
    have hidx := getElem_opt_append2 pre chunk rest
    simp only [parse_step, hs, hfp, hidx]
    match hx : rest[0]? with
    | none => rfl
    | some x => simp [hne x hx]

theorem parse_step_nosep (verify : Bool) (w : Nat) (b pre chunk rest : List Nat) (v : Nat)
    (hb : b = pre ++ (chunk ++ rest))
    (hfp : fastparse verify w chunk = some v) :
    parse_step verify w chunk.length none b pre.length = some (v, pre.length + chunk.length) := by
  subst hb
  simp only [parse_step, slice_bytes_append pre chunk rest, hfp]

theorem fracval_zero (ds : List Nat) : fracval 0 ds = 0 := by
  induction ds with
  | nil => rfl
  | cons d t ih => simp [fracval, ih]

theorem fracval_lt (k : Nat) (ds : List Nat) (hds : ∀ d ∈ ds, d < 10) :
    fracval (10 ^ k) ds < 10 ^ (k + 1) := by
  induction ds generalizing k with
  | nil =>
    simp only [fracval]
    exact Nat.pos_pow_of_pos _ (by omega)
  | cons d t ih =>
    have hd : d < 10 := hds d (by simp)
    have ht : ∀ x ∈ t, x < 10 := fun x hx => hds x (by simp [hx])
    match k with
    | 0 =>
      simp only [fracval, pow_zero, Nat.mul_one]
      have h0 : (1 : Nat) / 10 = 0 := by norm_num
      rw [h0, fracval_zero]
      simpa using hd
    | j + 1 =>
      simp only [fracval]
      have hdiv : (10 : Nat) ^ (j + 1) / 10 = 10 ^ j := by
        rw [pow_succ, Nat.mul_div_cancel _ (by omega : (0:Nat) < 10)]
      rw [hdiv]
      have h1 := ih j ht
      have h2 : d * 10 ^ (j + 1) ≤ 9 * 10 ^ (j + 1) :=
        Nat.mul_le_mul_right _ (by omega)
      have h3 : (10 : Nat) ^ (j + 1 + 1) = 10 * 10 ^ (j + 1) := by ring
      have h4 : (10 : Nat) ^ (j + 1) = 10 * 10 ^ j := by ring
      omega

theorem fracval_spec (f : Nat) (ds : List Nat) :
    fracval f ds = ∑ k ∈ Finset.range ds.length, ds.getD k 0 * (f / 10 ^ k) := by
  induction ds generalizing f with
  | nil => simp [fracval]
  | cons d t ih =>
    rw [fracval, List.length_cons, Finset.sum_range_succ', ih (f / 10)]
    simp only [List.getD_cons_succ, List.getD_cons_zero, pow_zero, Nat.div_one]
    have hdiv : ∀ k : Nat, f / 10 / 10 ^ k = f / 10 ^ (k + 1) := by
      intro k
      rw [Nat.div_div_eq_div_mul, ← pow_succ']
    rw [Finset.sum_congr rfl (fun k _ => by rw [hdiv k])]
    omega

theorem frac_loop_eq (b : List Nat) (offset factor nano : Nat) :
    frac_loop b offset factor nano =
      match b[offset]? with
      | none => (nano, offset)
      | some c =>
        if 9 < (c + 208) % 256 then (nano, offset)
        else frac_loop b (offset + 1) (factor / 10) (nano + (c + 208) % 256 * factor) := by
  match hx : b[offset]? with
  | none =>
    have hlen : b.length ≤ offset := by
      by_contra hc
      push_neg at hc
      rw [List.getElem?_eq_getElem hc] at hx
      cases hx
    have h0 : b.length - offset = 0 := by omega
    simp only [frac_loop, h0, frac_loop_fuel]
  | some c =>
    have hlen : offset < b.length := (List.getElem?_eq_some.mp hx).1
    have h1 : b.length - offset = (b.length - (offset + 1)) + 1 := by omega
    simp only [frac_loop, h1, frac_loop_fuel, hx]

theorem frac_loop_app (ds : List Nat) (pre rest : List Nat) (factor nano : Nat)
    (hds : ∀ d ∈ ds, d < 10)
    (hrest : ∀ x, rest[0]? = some x → 9 < (x + 208) % 256) :
    frac_loop (pre ++ (ds.map (· + 48) ++ rest)) pre.length factor nano =
      (nano + fracval factor ds, pre.length + ds.length) := by
  induction ds generalizing pre factor nano with
  | nil =>
    simp only [List.map_nil, List.nil_append, List.length_nil, Nat.add_zero, fracval]
    rw [frac_loop_eq]
    rw [getElem_opt_append_head]
    match hx : rest[0]? with
    | none => simp
    | some x =>
      simp only
      rw [if_pos (hrest x hx)]
  | cons d t ih =>
    have hd : d < 10 := hds d (by simp)
    have ht : ∀ x ∈ t, x < 10 := fun x hx => hds x (by simp [hx])
    simp only [List.map_cons, List.cons_append, List.length_cons]
    rw [frac_loop_eq]
    have hhead : (pre ++ (d + 48) :: (t.map (· + 48) ++ rest))[pre.length]? = some (d + 48) := by
      have := getElem_opt_append_head pre ((d + 48) :: (t.map (· + 48) ++ rest))
      simpa using this
    rw [hhead]
    simp only
    have hdig : (d + 48 + 208) % 256 = d := by omega
    rw [hdig, if_neg (by omega : ¬ 9 < d)]
    have hsplit : pre ++ (d + 48) :: (t.map (· + 48) ++ rest) =
        (pre ++ [d + 48]) ++ (t.map (· + 48) ++ rest) := by simp
    have hlen : pre.length + 1 = (pre ++ [d + 48]).length := by simp
    rw [hsplit, hlen, ih _ _ _ ht]
    simp only [List.length_append, List.length_cons, List.length_nil, Prod.mk.injEq, fracval]
    constructor <;> omega

theorem head_opt_write_num_2 (v : Nat) (rest : List Nat) :
    (write_num v 2 ++ rest)[0]? = some (v % 100 / 10 + 48) := by
  rw [write_num_two]
  rfl

theorem head_opt_write_num_4 (v : Nat) (rest : List Nat) :
    (write_num v 4 ++ rest)[0]? = some (v / 100 % 100 / 10 + 48) := by
  rw [write_num_four]
  rfl

theorem sepIf_cases (F : Bool) (c : Nat) (rest : List Nat) (x0 : Nat)
    (hx0 : rest[0]? = some x0) (hne : x0 ≠ c) :
    sepIf F c = [c] ∨ (sepIf F c = [] ∧ ∀ x, rest[0]? = some x → x ≠ c) := by
  cases F with
  | true => exact Or.inl rfl
  | false =>
    refine Or.inr ⟨rfl, ?_⟩
    intro x hx
    rw [hx0] at hx
    cases hx
    exact hne

theorem sepIf_length (F : Bool) (c : Nat) : (sepIf F c).length = bool1 F := by
  cases F <;> rfl

theorem parse_seconds_render (verify : Bool) (b pre rest : List Nat) (sec : Nat)
    (frac : Option (Nat × List Nat))
    (hb : b = pre ++ (write_num sec 2 ++ (frac_bytes frac ++ rest)))
    (hsec : sec ≤ 99)
    (hfrac : ∀ dc ds, frac = some (dc, ds) → (dc = 46 ∨ dc = 44) ∧ ∀ d ∈ ds, d < 10)
    (hrest : ∀ x, rest[0]? = some x → ¬(x = 46 ∨ x = 44) ∧ 9 < (x + 208) % 256) :
    parse_iso8601_seconds verify b pre.length =
      (if 59 < sec then
        (if verify ∧ 60 < sec then none
         else some (59, 999999999, pre.length + 2 + frac_len frac))
       else some (sec, frac_value frac, pre.length + 2 + frac_len frac)) := by
  have hw2 : (write_num sec 2).length = 2 := write_num_length sec 2
  have hhead : b[pre.length]? = some (sec % 100 / 10 + 48) := by
    rw [hb, getElem_opt_append_head, head_opt_write_num_2]
  have hdig : 48 ≤ sec % 100 / 10 + 48 ∧ sec % 100 / 10 + 48 ≤ 57 := by omega
  have hsecstep : parse_step verify 1 2 none b pre.length = some (sec, pre.length + 2) := by
    have h := parse_step_nosep verify 1 b pre (write_num sec 2) (frac_bytes frac ++ rest) sec
      hb (fastparse_write_num_2 verify 1 (by omega) sec hsec)
    rw [hw2] at h
    exact h
  have hidx0 := getElem_opt_append2 pre (write_num sec 2) (frac_bytes frac ++ rest)
  rw [hw2] at hidx0
  rw [← hb] at hidx0
  rw [parse_iso8601_seconds, hhead]
  simp only [if_pos hdig, hsecstep]
  have hfr : parse_frac b (pre.length + 2) =
      (frac_value frac, pre.length + 2 + frac_len frac) := by
    rw [parse_frac]
    match hfc : frac with
    | none =>
      have hidx : b[pre.length + 2]? = rest[0]? := by
        rw [hidx0]
        rfl
      rw [hidx]
      match hx : rest[0]? with
      | none => simp [frac_value, frac_len]
      | some x =>
        simp only
        rw [if_neg (hrest x hx).1]
        simp [frac_value, frac_len]
    | some (dc, ds) =>
      obtain ⟨hdc, hds⟩ := hfrac dc ds rfl
      have hidx : b[pre.length + 2]? = some dc := by
        rw [hidx0]
        simp [frac_bytes]
      rw [hidx]
      simp only
      rw [if_pos hdc]
      have hb2 : b = (pre ++ write_num sec 2 ++ [dc]) ++ (ds.map (· + 48) ++ rest) := by
        rw [hb]
        simp [frac_bytes, List.append_assoc]
      have hlen2 : pre.length + 2 + 1 = (pre ++ write_num sec 2 ++ [dc]).length := by
        simp [hw2]
      rw [hlen2, hb2, frac_loop_app ds _ _ _ _ hds (fun x hx => (hrest x hx).2)]
      simp only [List.length_append, List.length_cons, List.length_nil, hw2, frac_value, frac_len,
        Prod.mk.injEq]
      constructor
      · omega
      · omega
  rw [hfr]


theorem parse_tz_render (verify : Bool) (b pre : List Nat) (tz : TzForm)
    (dt : PrimitiveDateTime)
    (hb : b = pre ++ tz_bytes tz)
    (htz : ∀ sign colon oh om, tz = .offs sign colon oh om →
      (sign = 43 ∨ sign = 45 ∨ sign = 226) ∧ oh ≤ 99 ∧ om ≤ 99) :
    parse_iso8601_tz verify b pre.length dt = tz_result tz dt := by
  match tz with
  | .zed =>
    have hhead : b[pre.length]? = some 90 := by
      rw [hb]
      rw [getElem_opt_append_head]
      rfl
    have hlen : b.length = pre.length + 1 := by
      rw [hb]
      simp [tz_bytes]
    rw [parse_iso8601_tz, hhead]
    simp [tz_result, hlen]
  | .offs sign colon oh om =>
    obtain ⟨hsign, hoh, hom⟩ := htz sign colon oh om rfl
    have hw2oh : (write_num oh 2).length = 2 := write_num_length oh 2
    have hw2om : (write_num om 2).length = 2 := write_num_length om 2
    have hbe : b = pre ++ ((if sign = 226 then [226, 136, 146] else [sign]) ++
        (write_num oh 2 ++ (sepIf colon 58 ++ write_num om 2))) := by
      rw [hb]
      simp [tz_bytes, List.append_assoc]
    have hsign90 : ¬(sign = 90 ∨ sign = 122) := by rcases hsign with h | h | h <;> omega
    have hsignok : sign = 43 ∨ sign = 45 ∨ sign = 226 := hsign
    -- the sign-part bytes and the parser position after them
    have hhead : b[pre.length]? = some sign := by
      rw [hbe, getElem_opt_append_head]
      rcases hsign with h | h | h <;> subst h <;> rfl
    -- step for the offset hour
    have hohstep : parse_step verify 1 2 (some 58) b
        (pre ++ (if sign = 226 then [226, 136, 146] else [sign])).length =
        some (oh, (pre ++ (if sign = 226 then [226, 136, 146] else [sign])).length + 2 +
          (sepIf colon 58).length) := by
      have h := parse_step_sep verify 1 b (pre ++ (if sign = 226 then [226, 136, 146] else [sign]))
        (write_num oh 2) (sepIf colon 58) (write_num om 2) 58 oh
        (by rw [hbe]; simp [List.append_assoc])
        (fastparse_write_num_2 verify 1 (by omega) oh hoh)
        (sepIf_cases colon 58 (write_num om 2) (om % 100 / 10 + 48)
          (by have := head_opt_write_num_2 om []; simpa using this) (by omega))
      rw [hw2oh] at h
      exact h
    have homstep : parse_step verify 1 2 none b
        ((pre ++ (if sign = 226 then [226, 136, 146] else [sign])).length + 2 +
          (sepIf colon 58).length) =
        some (om, (pre ++ (if sign = 226 then [226, 136, 146] else [sign])).length + 2 +
          (sepIf colon 58).length + 2) := by
      have h := parse_step_nosep verify 1 b
        (pre ++ (if sign = 226 then [226, 136, 146] else [sign]) ++ write_num oh 2 ++ sepIf colon 58)
        (write_num om 2) [] om
        (by rw [hbe]; simp [List.append_assoc])
        (fastparse_write_num_2 verify 1 (by omega) om hom)
      rw [hw2om] at h
      have hlen : (pre ++ (if sign = 226 then [226, 136, 146] else [sign]) ++ write_num oh 2 ++
          sepIf colon 58).length =
          (pre ++ (if sign = 226 then [226, 136, 146] else [sign])).length + 2 +
          (sepIf colon 58).length := by
        simp [hw2oh]
        omega
      rw [hlen] at h
      exact h
    have hblen : b.length = (pre ++ (if sign = 226 then [226, 136, 146] else [sign])).length + 2 +
        (sepIf colon 58).length + 2 := by
      rw [hbe]
      simp [hw2oh, hw2om]
      omega
    rw [parse_iso8601_tz, hhead]
    simp only [if_neg hsign90, if_pos hsignok]
    have hus : (if sign = 226 then
        (if slice_bytes b (pre.length + 1) 2 = some [136, 146] then some (pre.length + 1 + 2)
         else none)
        else some (pre.length + 1)) =
        some ((pre ++ (if sign = 226 then [226, 136, 146] else [sign])).length) := by
      rcases hsign with h | h | h <;> subst h
      · simp
      · simp
      · simp only [if_pos rfl]
        have hs : slice_bytes b (pre.length + 1) 2 = some [136, 146] := by
          have h2 := slice_bytes_append (pre ++ [226]) [136, 146]
            (write_num oh 2 ++ (sepIf colon 58 ++ write_num om 2))
          have hb2 : b = (pre ++ [226]) ++ ([136, 146] ++
              (write_num oh 2 ++ (sepIf colon 58 ++ write_num om 2))) := by
            rw [hbe]
            simp [List.append_assoc]
          rw [← hb2] at h2
          simpa using h2
        rw [if_pos hs]
        simp
    rw [hus]
    simp only [hohstep, homstep]
    have hne : ¬((pre ++ (if sign = 226 then [226, 136, 146] else [sign])).length + 2 +
        (sepIf colon 58).length + 2 ≠ b.length) := by omega
    have hres : tz_result (TzForm.offs sign colon oh om) dt =
        checked_add_seconds dt
          (if sign ≠ 43 then -(3600 * (oh : Int) + 60 * om) else 3600 * (oh : Int) + 60 * om) := rfl
    rw [hres]
    rcases hca : checked_add_seconds dt
        (if sign ≠ 43 then -(3600 * (oh : Int) + 60 * om) else 3600 * (oh : Int) + 60 * om)
      with _ | dt2
    · rfl
    · simp only [if_neg hne]

theorem frac_bytes_length (frac : Option (Nat × List Nat)) :
    (frac_bytes frac).length = frac_len frac := by
  match frac with
  | none => rfl
  | some (dc, ds) =>
    simp [frac_bytes, frac_len]
    omega

theorem tz_head_fact (tz : TzForm)
    (htz : ∀ sign colon oh om, tz = .offs sign colon oh om →
      (sign = 43 ∨ sign = 45 ∨ sign = 226) ∧ oh ≤ 99 ∧ om ≤ 99) :
    ∀ x, (tz_bytes tz)[0]? = some x → ¬(x = 46 ∨ x = 44) ∧ 9 < (x + 208) % 256 := by
  intro x hx
  match tz with
  | .zed =>
    simp [tz_bytes] at hx
    omega
  | .offs sign colon oh om =>
    obtain ⟨hsign, _, _⟩ := htz sign colon oh om rfl
    rcases hsign with hs | hs | hs <;> subst hs <;> simp [tz_bytes] at hx <;> omega

theorem frac_value_le (frac : Option (Nat × List Nat))
    (hfrac : ∀ dc ds, frac = some (dc, ds) → (dc = 46 ∨ dc = 44) ∧ ∀ x ∈ ds, x < 10) :
    frac_value frac ≤ 999999999 := by
  match frac with
  | none =>
    simp [frac_value]
  | some (dc, ds) =>
    obtain ⟨_, hds⟩ := hfrac dc ds rfl
    have hlt := fracval_lt 8 ds hds
    norm_num at hlt
    simp only [frac_value]
    omega

theorem days_in_month_le (leap : Bool) (m : Nat) : days_in_month leap m ≤ 31 := by
  rw [days_in_month]
  split
  · split <;> omega
  · split <;> omega

theorem parse_render_dt (verify F : Bool) (y : Int) (m d h mi sec : Nat)
    (frac : Option (Nat × List Nat)) (tz : TzForm)
    (hy : -9999 ≤ y ∧ y ≤ 9999) (hm : 1 ≤ m ∧ m ≤ 12)
    (hd : 1 ≤ d ∧ d ≤ days_in_month (gregorian_leap_year y) m)
    (hh : h ≤ 23) (hmi : mi ≤ 59) (hsec : sec ≤ 99)
    (hfrac : ∀ dc ds, frac = some (dc, ds) → (dc = 46 ∨ dc = 44) ∧ ∀ x ∈ ds, x < 10)
    (htz : ∀ sign colon oh om, tz = .offs sign colon oh om →
      (sign = 43 ∨ sign = 45 ∨ sign = 226) ∧ oh ≤ 99 ∧ om ≤ 99) :
    parse_iso8601 verify (render_dt F y m d h mi sec frac tz) =
      if verify ∧ 60 < sec then none
      else tz_result tz ⟨⟨y, days_before_month (gregorian_leap_year y) m + d⟩,
        if 59 < sec then ⟨h, mi, 59, 999999999⟩ else ⟨h, mi, sec, frac_value frac⟩⟩ := by
  have hnat : y.natAbs ≤ 9999 := by omega
  have hdim : days_in_month (gregorian_leap_year y) m ≤ 31 := days_in_month_le (gregorian_leap_year y) m
  by_cases hy0 : y < 0
  · have hs0 : (if y < 0 then ([45] : List Nat) else []) = [45] := if_pos hy0
    have hb : render_dt F y m d h mi sec frac tz = [45] ++ (write_num y.natAbs 4 ++ (sepIf F 45 ++ (write_num m 2 ++ (sepIf F 45 ++ (write_num d 2 ++ ([84] ++ (write_num h 2 ++ (sepIf F 58 ++ (write_num mi 2 ++ (sepIf F 58 ++ (write_num sec 2 ++ (frac_bytes frac ++ (tz_bytes tz))))))))))))) := by
      rw [render_dt, hs0]
      simp [List.append_assoc]
    have hneg : ((render_dt F y m d h mi sec frac tz)[0]? = some 45) = True := by
      rw [hb]
      simp
    rw [parse_iso8601]
    simp only [hneg, if_true]
    have h1 : parse_step verify 2 4 (some 45) (render_dt F y m d h mi sec frac tz) (([45]).length) =
        some (y.natAbs, ([45]).length + 4 + (sepIf F 45).length) := by
      have hq := parse_step_sep verify 2 (render_dt F y m d h mi sec frac tz) ([45]) (write_num y.natAbs 4) (sepIf F 45) (write_num m 2 ++ (sepIf F 45 ++ (write_num d 2 ++ ([84] ++ (write_num h 2 ++ (sepIf F 58 ++ (write_num mi 2 ++ (sepIf F 58 ++ (write_num sec 2 ++ (frac_bytes frac ++ (tz_bytes tz))))))))))) 45 y.natAbs
        (by simp only [hb, List.append_assoc, List.nil_append])
        (fastparse_write_num_4 verify 2 (by omega) y.natAbs hnat)
        (sepIf_cases F 45 (write_num m 2 ++ (sepIf F 45 ++ (write_num d 2 ++ ([84] ++ (write_num h 2 ++ (sepIf F 58 ++ (write_num mi 2 ++ (sepIf F 58 ++ (write_num sec 2 ++ (frac_bytes frac ++ (tz_bytes tz))))))))))) (m % 100 / 10 + 48) (head_opt_write_num_2 m (sepIf F 45 ++ (write_num d 2 ++ ([84] ++ (write_num h 2 ++ (sepIf F 58 ++ (write_num mi 2 ++ (sepIf F 58 ++ (write_num sec 2 ++ (frac_bytes frac ++ (tz_bytes tz))))))))))) (by omega))
      rw [write_num_length] at hq
      exact hq
    simp only [List.length_append, List.length_cons, List.length_nil, write_num_length, Nat.zero_add, frac_bytes_length] at h1
    simp only [h1]
    have h2 : parse_step verify 1 2 (some 45) (render_dt F y m d h mi sec frac tz) (([45] ++ write_num y.natAbs 4 ++ sepIf F 45).length) =
        some (m, ([45] ++ write_num y.natAbs 4 ++ sepIf F 45).length + 2 + (sepIf F 45).length) := by
      have hq := parse_step_sep verify 1 (render_dt F y m d h mi sec frac tz) ([45] ++ write_num y.natAbs 4 ++ sepIf F 45) (write_num m 2) (sepIf F 45) (write_num d 2 ++ ([84] ++ (write_num h 2 ++ (sepIf F 58 ++ (write_num mi 2 ++ (sepIf F 58 ++ (write_num sec 2 ++ (frac_bytes frac ++ (tz_bytes tz))))))))) 45 m
        (by simp only [hb, List.append_assoc, List.nil_append])
        (fastparse_write_num_2 verify 1 (by omega) m (by omega))
        (sepIf_cases F 45 (write_num d 2 ++ ([84] ++ (write_num h 2 ++ (sepIf F 58 ++ (write_num mi 2 ++ (sepIf F 58 ++ (write_num sec 2 ++ (frac_bytes frac ++ (tz_bytes tz))))))))) (d % 100 / 10 + 48) (head_opt_write_num_2 d ([84] ++ (write_num h 2 ++ (sepIf F 58 ++ (write_num mi 2 ++ (sepIf F 58 ++ (write_num sec 2 ++ (frac_bytes frac ++ (tz_bytes tz))))))))) (by omega))
      rw [write_num_length] at hq
      exact hq
    simp only [List.length_append, List.length_cons, List.length_nil, write_num_length, Nat.zero_add, frac_bytes_length] at h2
    simp only [h2]
    have h3 : parse_step verify 1 2 none (render_dt F y m d h mi sec frac tz) (([45] ++ write_num y.natAbs 4 ++ sepIf F 45 ++ write_num m 2 ++ sepIf F 45).length) =
        some (d, ([45] ++ write_num y.natAbs 4 ++ sepIf F 45 ++ write_num m 2 ++ sepIf F 45).length + 2) := by
      have hq := parse_step_nosep verify 1 (render_dt F y m d h mi sec frac tz) ([45] ++ write_num y.natAbs 4 ++ sepIf F 45 ++ write_num m 2 ++ sepIf F 45) (write_num d 2) ([84] ++ (write_num h 2 ++ (sepIf F 58 ++ (write_num mi 2 ++ (sepIf F 58 ++ (write_num sec 2 ++ (frac_bytes frac ++ (tz_bytes tz)))))))) d
        (by simp only [hb, List.append_assoc, List.nil_append])
        (fastparse_write_num_2 verify 1 (by omega) d (by omega))
      rw [write_num_length] at hq
      exact hq
    simp only [List.length_append, List.length_cons, List.length_nil, write_num_length, Nat.zero_add, frac_bytes_length] at h3
    simp only [h3]
    rw [if_pos hm]
    have hyy : -((y.natAbs : Nat) : Int) = y := by omega
    rw [hyy]
    rw [from_calendar_date, if_pos ⟨hy.1, hy.2, hm.1, hm.2, hd.1, hd.2⟩]
    have hT : (render_dt F y m d h mi sec frac tz)[([45] ++ write_num y.natAbs 4 ++ sepIf F 45 ++ write_num m 2 ++ sepIf F 45 ++ write_num d 2).length]? = some 84 := by
      have hx := getElem_opt_append_head ([45] ++ write_num y.natAbs 4 ++ sepIf F 45 ++ write_num m 2 ++ sepIf F 45 ++ write_num d 2) ([84] ++ (write_num h 2 ++ (sepIf F 58 ++ (write_num mi 2 ++ (sepIf F 58 ++ (write_num sec 2 ++ (frac_bytes frac ++ (tz_bytes tz))))))))
      rw [← (by simp only [hb, List.append_assoc, List.nil_append] : render_dt F y m d h mi sec frac tz = [45] ++ write_num y.natAbs 4 ++ sepIf F 45 ++ write_num m 2 ++ sepIf F 45 ++ write_num d 2 ++ ([84] ++ (write_num h 2 ++ (sepIf F 58 ++ (write_num mi 2 ++ (sepIf F 58 ++ (write_num sec 2 ++ (frac_bytes frac ++ (tz_bytes tz)))))))))] at hx
      exact hx
    simp only [List.length_append, List.length_cons, List.length_nil, write_num_length, Nat.zero_add, frac_bytes_length] at hT
    simp only [hT]
    simp only [true_or, if_true]
    rw [parse_iso8601_time]
    have h4 : parse_step verify 1 2 (some 58) (render_dt F y m d h mi sec frac tz) (([45] ++ write_num y.natAbs 4 ++ sepIf F 45 ++ write_num m 2 ++ sepIf F 45 ++ write_num d 2 ++ [84]).length) =
        some (h, ([45] ++ write_num y.natAbs 4 ++ sepIf F 45 ++ write_num m 2 ++ sepIf F 45 ++ write_num d 2 ++ [84]).length + 2 + (sepIf F 58).length) := by
      have hq := parse_step_sep verify 1 (render_dt F y m d h mi sec frac tz) ([45] ++ write_num y.natAbs 4 ++ sepIf F 45 ++ write_num m 2 ++ sepIf F 45 ++ write_num d 2 ++ [84]) (write_num h 2) (sepIf F 58) (write_num mi 2 ++ (sepIf F 58 ++ (write_num sec 2 ++ (frac_bytes frac ++ (tz_bytes tz))))) 58 h
        (by simp only [hb, List.append_assoc, List.nil_append])
        (fastparse_write_num_2 verify 1 (by omega) h (by omega))
        (sepIf_cases F 58 (write_num mi 2 ++ (sepIf F 58 ++ (write_num sec 2 ++ (frac_bytes frac ++ (tz_bytes tz))))) (mi % 100 / 10 + 48) (head_opt_write_num_2 mi (sepIf F 58 ++ (write_num sec 2 ++ (frac_bytes frac ++ (tz_bytes tz))))) (by omega))
      rw [write_num_length] at hq
      exact hq
    simp only [List.length_append, List.length_cons, List.length_nil, write_num_length, Nat.zero_add, frac_bytes_length] at h4
    simp only [h4]
    have h5 : parse_step verify 1 2 (some 58) (render_dt F y m d h mi sec frac tz) (([45] ++ write_num y.natAbs 4 ++ sepIf F 45 ++ write_num m 2 ++ sepIf F 45 ++ write_num d 2 ++ [84] ++ write_num h 2 ++ sepIf F 58).length) =
        some (mi, ([45] ++ write_num y.natAbs 4 ++ sepIf F 45 ++ write_num m 2 ++ sepIf F 45 ++ write_num d 2 ++ [84] ++ write_num h 2 ++ sepIf F 58).length + 2 + (sepIf F 58).length) := by
      have hq := parse_step_sep verify 1 (render_dt F y m d h mi sec frac tz) ([45] ++ write_num y.natAbs 4 ++ sepIf F 45 ++ write_num m 2 ++ sepIf F 45 ++ write_num d 2 ++ [84] ++ write_num h 2 ++ sepIf F 58) (write_num mi 2) (sepIf F 58) (write_num sec 2 ++ (frac_bytes frac ++ (tz_bytes tz))) 58 mi
        (by simp only [hb, List.append_assoc, List.nil_append])
        (fastparse_write_num_2 verify 1 (by omega) mi (by omega))
        (sepIf_cases F 58 (write_num sec 2 ++ (frac_bytes frac ++ (tz_bytes tz))) (sec % 100 / 10 + 48) (head_opt_write_num_2 sec (frac_bytes frac ++ (tz_bytes tz))) (by omega))
      rw [write_num_length] at hq
      exact hq
    simp only [List.length_append, List.length_cons, List.length_nil, write_num_length, Nat.zero_add, frac_bytes_length] at h5
    simp only [h5]
    have h6 : parse_iso8601_seconds verify (render_dt F y m d h mi sec frac tz) (([45] ++ write_num y.natAbs 4 ++ sepIf F 45 ++ write_num m 2 ++ sepIf F 45 ++ write_num d 2 ++ [84] ++ write_num h 2 ++ sepIf F 58 ++ write_num mi 2 ++ sepIf F 58).length) =
        (if 59 < sec then
          (if verify ∧ 60 < sec then none
           else some (59, 999999999, ([45] ++ write_num y.natAbs 4 ++ sepIf F 45 ++ write_num m 2 ++ sepIf F 45 ++ write_num d 2 ++ [84] ++ write_num h 2 ++ sepIf F 58 ++ write_num mi 2 ++ sepIf F 58).length + 2 + frac_len frac))
         else some (sec, frac_value frac, ([45] ++ write_num y.natAbs 4 ++ sepIf F 45 ++ write_num m 2 ++ sepIf F 45 ++ write_num d 2 ++ [84] ++ write_num h 2 ++ sepIf F 58 ++ write_num mi 2 ++ sepIf F 58).length + 2 + frac_len frac)) :=
      parse_seconds_render verify (render_dt F y m d h mi sec frac tz) ([45] ++ write_num y.natAbs 4 ++ sepIf F 45 ++ write_num m 2 ++ sepIf F 45 ++ write_num d 2 ++ [84] ++ write_num h 2 ++ sepIf F 58 ++ write_num mi 2 ++ sepIf F 58) (tz_bytes tz) sec frac
        (by simp only [hb, List.append_assoc, List.nil_append]) hsec hfrac (tz_head_fact tz htz)
    simp only [List.length_append, List.length_cons, List.length_nil, write_num_length, Nat.zero_add, frac_bytes_length] at h6
    have h7 : ∀ dt, parse_iso8601_tz verify (render_dt F y m d h mi sec frac tz) (([45] ++ write_num y.natAbs 4 ++ sepIf F 45 ++ write_num m 2 ++ sepIf F 45 ++ write_num d 2 ++ [84] ++ write_num h 2 ++ sepIf F 58 ++ write_num mi 2 ++ sepIf F 58 ++ write_num sec 2 ++ frac_bytes frac).length) dt = tz_result tz dt :=
      fun dt => parse_tz_render verify (render_dt F y m d h mi sec frac tz) ([45] ++ write_num y.natAbs 4 ++ sepIf F 45 ++ write_num m 2 ++ sepIf F 45 ++ write_num d 2 ++ [84] ++ write_num h 2 ++ sepIf F 58 ++ write_num mi 2 ++ sepIf F 58 ++ write_num sec 2 ++ frac_bytes frac) tz dt
        (by simp only [hb, List.append_assoc, List.nil_append]) htz
    simp only [List.length_append, List.length_cons, List.length_nil, write_num_length, Nat.zero_add, frac_bytes_length] at h7
    have hfv : frac_value frac ≤ 999999999 := frac_value_le frac hfrac
    by_cases hvf : verify ∧ 60 < sec
    · have hcl : 59 < sec := by omega
      rw [if_pos hcl, if_pos hvf] at h6
      simp only [h6, if_pos hvf]
    · by_cases hcl : 59 < sec
      · rw [if_pos hcl, if_neg hvf] at h6
        have hfm : Time.from_hms_nano h mi 59 999999999 = some ⟨h, mi, 59, 999999999⟩ := by
          rw [Time.from_hms_nano, if_pos ⟨hh, hmi, by omega, by omega⟩]
        simp only [h6, hfm, h7]
        rw [if_neg hvf, if_pos hcl]
      · rw [if_neg hcl] at h6
        have hfm : Time.from_hms_nano h mi sec (frac_value frac) = some ⟨h, mi, sec, frac_value frac⟩ := by
          rw [Time.from_hms_nano, if_pos ⟨hh, hmi, by omega, hfv⟩]
        simp only [h6, hfm, h7]
        rw [if_neg hvf, if_neg hcl]
  · have hs0 : (if y < 0 then ([45] : List Nat) else []) = [] := if_neg hy0
    have hb : render_dt F y m d h mi sec frac tz = write_num y.natAbs 4 ++ (sepIf F 45 ++ (write_num m 2 ++ (sepIf F 45 ++ (write_num d 2 ++ ([84] ++ (write_num h 2 ++ (sepIf F 58 ++ (write_num mi 2 ++ (sepIf F 58 ++ (write_num sec 2 ++ (frac_bytes frac ++ (tz_bytes tz)))))))))))) := by
      rw [render_dt, hs0]
      simp [List.append_assoc]
    have hhead0 : (render_dt F y m d h mi sec frac tz)[0]? = some (y.natAbs / 100 % 100 / 10 + 48) := by
      rw [hb]
      exact head_opt_write_num_4 y.natAbs (sepIf F 45 ++ (write_num m 2 ++ (sepIf F 45 ++ (write_num d 2 ++ ([84] ++ (write_num h 2 ++ (sepIf F 58 ++ (write_num mi 2 ++ (sepIf F 58 ++ (write_num sec 2 ++ (frac_bytes frac ++ (tz_bytes tz))))))))))))
    have hneg : ((render_dt F y m d h mi sec frac tz)[0]? = some 45) = False := by
      rw [hhead0]
      simp only [Option.some.injEq, eq_iff_iff, iff_false]
      omega
    rw [parse_iso8601]
    simp only [hneg, if_false, Bool.false_eq_true]
    have h1 : parse_step verify 2 4 (some 45) (render_dt F y m d h mi sec frac tz) ((([] : List Nat)).length) =
        some (y.natAbs, (([] : List Nat)).length + 4 + (sepIf F 45).length) := by
      have hq := parse_step_sep verify 2 (render_dt F y m d h mi sec frac tz) (([] : List Nat)) (write_num y.natAbs 4) (sepIf F 45) (write_num m 2 ++ (sepIf F 45 ++ (write_num d 2 ++ ([84] ++ (write_num h 2 ++ (sepIf F 58 ++ (write_num mi 2 ++ (sepIf F 58 ++ (write_num sec 2 ++ (frac_bytes frac ++ (tz_bytes tz))))))))))) 45 y.natAbs
        (by simp only [hb, List.append_assoc, List.nil_append])
        (fastparse_write_num_4 verify 2 (by omega) y.natAbs hnat)
        (sepIf_cases F 45 (write_num m 2 ++ (sepIf F 45 ++ (write_num d 2 ++ ([84] ++ (write_num h 2 ++ (sepIf F 58 ++ (write_num mi 2 ++ (sepIf F 58 ++ (write_num sec 2 ++ (frac_bytes frac ++ (tz_bytes tz))))))))))) (m % 100 / 10 + 48) (head_opt_write_num_2 m (sepIf F 45 ++ (write_num d 2 ++ ([84] ++ (write_num h 2 ++ (sepIf F 58 ++ (write_num mi 2 ++ (sepIf F 58 ++ (write_num sec 2 ++ (frac_bytes frac ++ (tz_bytes tz))))))))))) (by omega))
      rw [write_num_length] at hq
      exact hq
    simp only [List.length_append, List.length_cons, List.length_nil, write_num_length, Nat.zero_add, frac_bytes_length] at h1
    simp only [h1]
    have h2 : parse_step verify 1 2 (some 45) (render_dt F y m d h mi sec frac tz) ((write_num y.natAbs 4 ++ sepIf F 45).length) =
        some (m, (write_num y.natAbs 4 ++ sepIf F 45).length + 2 + (sepIf F 45).length) := by
      have hq := parse_step_sep verify 1 (render_dt F y m d h mi sec frac tz) (write_num y.natAbs 4 ++ sepIf F 45) (write_num m 2) (sepIf F 45) (write_num d 2 ++ ([84] ++ (write_num h 2 ++ (sepIf F 58 ++ (write_num mi 2 ++ (sepIf F 58 ++ (write_num sec 2 ++ (frac_bytes frac ++ (tz_bytes tz))))))))) 45 m
        (by simp only [hb, List.append_assoc, List.nil_append])
        (fastparse_write_num_2 verify 1 (by omega) m (by omega))
        (sepIf_cases F 45 (write_num d 2 ++ ([84] ++ (write_num h 2 ++ (sepIf F 58 ++ (write_num mi 2 ++ (sepIf F 58 ++ (write_num sec 2 ++ (frac_bytes frac ++ (tz_bytes tz))))))))) (d % 100 / 10 + 48) (head_opt_write_num_2 d ([84] ++ (write_num h 2 ++ (sepIf F 58 ++ (write_num mi 2 ++ (sepIf F 58 ++ (write_num sec 2 ++ (frac_bytes frac ++ (tz_bytes tz))))))))) (by omega))
      rw [write_num_length] at hq
      exact hq
    simp only [List.length_append, List.length_cons, List.length_nil, write_num_length, Nat.zero_add, frac_bytes_length] at h2
    simp only [h2]
    have h3 : parse_step verify 1 2 none (render_dt F y m d h mi sec frac tz) ((write_num y.natAbs 4 ++ sepIf F 45 ++ write_num m 2 ++ sepIf F 45).length) =
        some (d, (write_num y.natAbs 4 ++ sepIf F 45 ++ write_num m 2 ++ sepIf F 45).length + 2) := by
      have hq := parse_step_nosep verify 1 (render_dt F y m d h mi sec frac tz) (write_num y.natAbs 4 ++ sepIf F 45 ++ write_num m 2 ++ sepIf F 45) (write_num d 2) ([84] ++ (write_num h 2 ++ (sepIf F 58 ++ (write_num mi 2 ++ (sepIf F 58 ++ (write_num sec 2 ++ (frac_bytes frac ++ (tz_bytes tz)))))))) d
        (by simp only [hb, List.append_assoc, List.nil_append])
        (fastparse_write_num_2 verify 1 (by omega) d (by omega))
      rw [write_num_length] at hq
      exact hq
    simp only [List.length_append, List.length_cons, List.length_nil, write_num_length, Nat.zero_add, frac_bytes_length] at h3
    simp only [h3]
    rw [if_pos hm]
    have hyy : ((y.natAbs : Nat) : Int) = y := by omega
    rw [hyy]
    rw [from_calendar_date, if_pos ⟨hy.1, hy.2, hm.1, hm.2, hd.1, hd.2⟩]
    have hT : (render_dt F y m d h mi sec frac tz)[(write_num y.natAbs 4 ++ sepIf F 45 ++ write_num m 2 ++ sepIf F 45 ++ write_num d 2).length]? = some 84 := by
      have hx := getElem_opt_append_head (write_num y.natAbs 4 ++ sepIf F 45 ++ write_num m 2 ++ sepIf F 45 ++ write_num d 2) ([84] ++ (write_num h 2 ++ (sepIf F 58 ++ (write_num mi 2 ++ (sepIf F 58 ++ (write_num sec 2 ++ (frac_bytes frac ++ (tz_bytes tz))))))))
      rw [← (by simp only [hb, List.append_assoc, List.nil_append] : render_dt F y m d h mi sec frac tz = write_num y.natAbs 4 ++ sepIf F 45 ++ write_num m 2 ++ sepIf F 45 ++ write_num d 2 ++ ([84] ++ (write_num h 2 ++ (sepIf F 58 ++ (write_num mi 2 ++ (sepIf F 58 ++ (write_num sec 2 ++ (frac_bytes frac ++ (tz_bytes tz)))))))))] at hx
      exact hx
    simp only [List.length_append, List.length_cons, List.length_nil, write_num_length, Nat.zero_add, frac_bytes_length] at hT
    simp only [hT]
    simp only [true_or, if_true]
    rw [parse_iso8601_time]
    have h4 : parse_step verify 1 2 (some 58) (render_dt F y m d h mi sec frac tz) ((write_num y.natAbs 4 ++ sepIf F 45 ++ write_num m 2 ++ sepIf F 45 ++ write_num d 2 ++ [84]).length) =
        some (h, (write_num y.natAbs 4 ++ sepIf F 45 ++ write_num m 2 ++ sepIf F 45 ++ write_num d 2 ++ [84]).length + 2 + (sepIf F 58).length) := by
      have hq := parse_step_sep verify 1 (render_dt F y m d h mi sec frac tz) (write_num y.natAbs 4 ++ sepIf F 45 ++ write_num m 2 ++ sepIf F 45 ++ write_num d 2 ++ [84]) (write_num h 2) (sepIf F 58) (write_num mi 2 ++ (sepIf F 58 ++ (write_num sec 2 ++ (frac_bytes frac ++ (tz_bytes tz))))) 58 h
        (by simp only [hb, List.append_assoc, List.nil_append])
        (fastparse_write_num_2 verify 1 (by omega) h (by omega))
        (sepIf_cases F 58 (write_num mi 2 ++ (sepIf F 58 ++ (write_num sec 2 ++ (frac_bytes frac ++ (tz_bytes tz))))) (mi % 100 / 10 + 48) (head_opt_write_num_2 mi (sepIf F 58 ++ (write_num sec 2 ++ (frac_bytes frac ++ (tz_bytes tz))))) (by omega))
      rw [write_num_length] at hq
      exact hq
    simp only [List.length_append, List.length_cons, List.length_nil, write_num_length, Nat.zero_add, frac_bytes_length] at h4
    simp only [h4]
    have h5 : parse_step verify 1 2 (some 58) (render_dt F y m d h mi sec frac tz) ((write_num y.natAbs 4 ++ sepIf F 45 ++ write_num m 2 ++ sepIf F 45 ++ write_num d 2 ++ [84] ++ write_num h 2 ++ sepIf F 58).length) =
        some (mi, (write_num y.natAbs 4 ++ sepIf F 45 ++ write_num m 2 ++ sepIf F 45 ++ write_num d 2 ++ [84] ++ write_num h 2 ++ sepIf F 58).length + 2 + (sepIf F 58).length) := by
      have hq := parse_step_sep verify 1 (render_dt F y m d h mi sec frac tz) (write_num y.natAbs 4 ++ sepIf F 45 ++ write_num m 2 ++ sepIf F 45 ++ write_num d 2 ++ [84] ++ write_num h 2 ++ sepIf F 58) (write_num mi 2) (sepIf F 58) (write_num sec 2 ++ (frac_bytes frac ++ (tz_bytes tz))) 58 mi
        (by simp only [hb, List.append_assoc, List.nil_append])
        (fastparse_write_num_2 verify 1 (by omega) mi (by omega))
        (sepIf_cases F 58 (write_num sec 2 ++ (frac_bytes frac ++ (tz_bytes tz))) (sec % 100 / 10 + 48) (head_opt_write_num_2 sec (frac_bytes frac ++ (tz_bytes tz))) (by omega))
      rw [write_num_length] at hq
      exact hq
    simp only [List.length_append, List.length_cons, List.length_nil, write_num_length, Nat.zero_add, frac_bytes_length] at h5
    simp only [h5]
    have h6 : parse_iso8601_seconds verify (render_dt F y m d h mi sec frac tz) ((write_num y.natAbs 4 ++ sepIf F 45 ++ write_num m 2 ++ sepIf F 45 ++ write_num d 2 ++ [84] ++ write_num h 2 ++ sepIf F 58 ++ write_num mi 2 ++ sepIf F 58).length) =
        (if 59 < sec then
          (if verify ∧ 60 < sec then none
           else some (59, 999999999, (write_num y.natAbs 4 ++ sepIf F 45 ++ write_num m 2 ++ sepIf F 45 ++ write_num d 2 ++ [84] ++ write_num h 2 ++ sepIf F 58 ++ write_num mi 2 ++ sepIf F 58).length + 2 + frac_len frac))
         else some (sec, frac_value frac, (write_num y.natAbs 4 ++ sepIf F 45 ++ write_num m 2 ++ sepIf F 45 ++ write_num d 2 ++ [84] ++ write_num h 2 ++ sepIf F 58 ++ write_num mi 2 ++ sepIf F 58).length + 2 + frac_len frac)) :=
      parse_seconds_render verify (render_dt F y m d h mi sec frac tz) (write_num y.natAbs 4 ++ sepIf F 45 ++ write_num m 2 ++ sepIf F 45 ++ write_num d 2 ++ [84] ++ write_num h 2 ++ sepIf F 58 ++ write_num mi 2 ++ sepIf F 58) (tz_bytes tz) sec frac
        (by simp only [hb, List.append_assoc, List.nil_append]) hsec hfrac (tz_head_fact tz htz)
    simp only [List.length_append, List.length_cons, List.length_nil, write_num_length, Nat.zero_add, frac_bytes_length] at h6
    have h7 : ∀ dt, parse_iso8601_tz verify (render_dt F y m d h mi sec frac tz) ((write_num y.natAbs 4 ++ sepIf F 45 ++ write_num m 2 ++ sepIf F 45 ++ write_num d 2 ++ [84] ++ write_num h 2 ++ sepIf F 58 ++ write_num mi 2 ++ sepIf F 58 ++ write_num sec 2 ++ frac_bytes frac).length) dt = tz_result tz dt :=
      fun dt => parse_tz_render verify (render_dt F y m d h mi sec frac tz) (write_num y.natAbs 4 ++ sepIf F 45 ++ write_num m 2 ++ sepIf F 45 ++ write_num d 2 ++ [84] ++ write_num h 2 ++ sepIf F 58 ++ write_num mi 2 ++ sepIf F 58 ++ write_num sec 2 ++ frac_bytes frac) tz dt
        (by simp only [hb, List.append_assoc, List.nil_append]) htz
    simp only [List.length_append, List.length_cons, List.length_nil, write_num_length, Nat.zero_add, frac_bytes_length] at h7
    have hfv : frac_value frac ≤ 999999999 := frac_value_le frac hfrac
    by_cases hvf : verify ∧ 60 < sec
    · have hcl : 59 < sec := by omega
      rw [if_pos hcl, if_pos hvf] at h6
      simp only [h6, if_pos hvf]
    · by_cases hcl : 59 < sec
      · rw [if_pos hcl, if_neg hvf] at h6
        have hfm : Time.from_hms_nano h mi 59 999999999 = some ⟨h, mi, 59, 999999999⟩ := by
          rw [Time.from_hms_nano, if_pos ⟨hh, hmi, by omega, by omega⟩]
        simp only [h6, hfm, h7]
        rw [if_neg hvf, if_pos hcl]
      · rw [if_neg hcl] at h6
        have hfm : Time.from_hms_nano h mi sec (frac_value frac) = some ⟨h, mi, sec, frac_value frac⟩ := by
          rw [Time.from_hms_nano, if_pos ⟨hh, hmi, by omega, hfv⟩]
        simp only [h6, hfm, h7]
        rw [if_neg hvf, if_neg hcl]

/-! ## Shape of the formatted buffer -/

set_option maxHeartbeats 4000000 in
theorem do_format_shape (F O : Bool) (P : Nat) (hP : P ≤ 9) (y : Int) (o : Nat)
    (h mi s ns : Nat) (oneg : Bool) (ooh oom : Nat) (m d : Nat)
    (hmd : ordinal_to_md (gregorian_leap_year y) o = (m, d)) :
    do_format F O P ⟨⟨y, o⟩, ⟨h, mi, s, ns⟩⟩ ⟨oneg, ooh, oom⟩ =
      format_bytes F O P y m d h mi s ns ⟨oneg, ooh, oom⟩ := by
  cases F <;> cases O <;> interval_cases P <;> cases oneg <;> by_cases hy0 : y < 0 <;>
    simp only [do_format, format_bytes, to_calendar_date, Date.to_calendar_date, hmd,
      if_true, if_false, hy0] <;>
    first
      | (rw [show y.natAbs = (-y).toNat from by omega]
         dsimp only [splice, write_num, template, sepIf, bool1]
         norm_num)
      | (rw [show y.natAbs = y.toNat from by omega]
         dsimp only [splice, write_num, template, sepIf, bool1]
         norm_num)

/-! ## Calendar equivalences and the format/parse round trip -/

theorem ordinal_to_md_dbm :
    ∀ leap : Bool, ∀ m < 13, ∀ dd < 32, (1 ≤ m ∧ 1 ≤ dd ∧ dd ≤ days_in_month leap m) →
      ordinal_to_md leap (days_before_month leap m + dd) = (m, dd) := by decide

theorem ordinal_bounds :
    ∀ leap : Bool, ∀ m < 13, ∀ dd < 32, (1 ≤ m ∧ 1 ≤ dd ∧ dd ≤ days_in_month leap m) →
      1 ≤ days_before_month leap m + dd ∧
        days_before_month leap m + dd ≤ (if leap then 366 else 365) := by decide

theorem days_in_year_eq (y : Int) :
    days_in_year y = if gregorian_leap_year y then 366 else 365 := rfl

theorem checked_add_zero (y : Int) (o : Nat) (h mi s ns : Nat)
    (hy : -9999 ≤ y ∧ y ≤ 9999) (ho : 1 ≤ o ∧ o ≤ days_in_year y)
    (hh : h ≤ 23) (hmi : mi ≤ 59) (hs : s ≤ 59) :
    checked_add_seconds ⟨⟨y, o⟩, ⟨h, mi, s, ns⟩⟩ 0 = some ⟨⟨y, o⟩, ⟨h, mi, s, ns⟩⟩ := by
  simp only [checked_add_seconds]
  have h1 : ((h : Int) * 3600 + (mi : Int) * 60 + (s : Int) + 0) =
      ((h * 3600 + mi * 60 + s : Nat) : Int) := by push_cast; ring
  rw [h1]
  have h2 : Int.ediv ((h * 3600 + mi * 60 + s : Nat) : Int) 86400 = 0 := by
    apply Int.ediv_eq_zero_of_lt
    · omega
    · omega
  have h3 : Int.emod ((h * 3600 + mi * 60 + s : Nat) : Int) 86400 =
      ((h * 3600 + mi * 60 + s : Nat) : Int) := by
    apply Int.emod_eq_of_lt
    · omega
    · omega
  rw [h2, h3]
  have h4 : ((0 : Int).natAbs + 1) = 1 := rfl
  rw [h4]
  have h5 : ((o : Nat) : Int) + 0 = (o : Int) := by omega
  rw [h5]
  rw [add_days_fuel]
  rw [if_neg (by omega : ¬ ((o : Int) < 1))]
  rw [if_neg (by
    have := ho.2
    omega : ¬ ((days_in_year y : Int) < (o : Int)))]
  rw [if_pos hy]
  have e1 : ((h * 3600 + mi * 60 + s : Nat) : Int).toNat = h * 3600 + mi * 60 + s := by omega
  have e5 : ((o : Nat) : Int).toNat = o := by omega
  rw [e1, e5]
  have e2 : (h * 3600 + mi * 60 + s) / 3600 = h := by omega
  have e3 : (h * 3600 + mi * 60 + s) % 3600 / 60 = mi := by omega
  have e4 : (h * 3600 + mi * 60 + s) % 60 = s := by omega
  rw [e2, e3, e4]

theorem view_format_bytes (F O : Bool) (P : Nat) (hP : P ≤ 9) (y : Int) (m d h mi s ns : Nat) :
    timestamp_str_view (format_bytes F O P y m d h mi s ns ⟨false, 0, 0⟩) =
      render_dt F y m d h mi s
        (if P = 0 then none else some (46, num_digits (ns / 10 ^ (9 - P)) P))
        (if O then TzForm.offs 43 true 0 0 else TzForm.zed) := by
  have hfb : frac_bytes (if P = 0 then none else some (46, num_digits (ns / 10 ^ (9 - P)) P)) =
      (if 1 ≤ P ∧ P ≤ 9 then 46 :: write_num (ns / 10 ^ (9 - P)) P else ([] : List Nat)) := by
    by_cases hP0 : P = 0
    · subst hP0
      simp [frac_bytes]
    · rw [if_neg hP0, if_pos ⟨by omega, hP⟩]
      simp [frac_bytes, write_num_eq_digits]
  have htzb : tz_bytes (if O then TzForm.offs 43 true 0 0 else TzForm.zed) =
      (if O then [43] ++ (write_num 0 2 ++ ([58] ++ write_num 0 2)) else [90]) := by
    cases O <;> simp [tz_bytes, sepIf]
  by_cases hy0 : y < 0
  · simp only [render_dt, format_bytes, hy0, if_true, hfb, htzb, timestamp_str_view]
    simp [List.append_assoc]
  · simp only [render_dt, format_bytes, hy0, if_false, hfb, htzb, timestamp_str_view]
    simp [List.append_assoc, head_opt_write_num_4]

theorem fracval_num_digits (P : Nat) (h1 : 1 ≤ P) (h9 : P ≤ 9) (v : Nat) (hv : v < 10 ^ P) :
    fracval 100000000 (num_digits v P) = v * 10 ^ (9 - P) := by
  interval_cases P <;>
    · norm_num at hv ⊢
      dsimp only [num_digits, fracval]
      omega

theorem format_bytes_length (F O : Bool) (P : Nat) (hP : P ≤ 9) (y : Int)
    (m d h mi s ns : Nat) (oneg : Bool) (ooh oom : Nat) :
    (format_bytes F O P y m d h mi s ns ⟨oneg, ooh, oom⟩).length = StrLen F O P := by
  by_cases hP0 : P = 0
  · subst hP0
    cases oneg <;> cases O <;> cases F <;> by_cases hy0 : y < 0 <;>
      simp [format_bytes, StrLen, sepIf, write_num_length, hy0]
  · have hPP : 1 ≤ P ∧ P ≤ 9 := ⟨by omega, hP⟩
    have hpos : 0 < P := by omega
    cases oneg <;> cases O <;> cases F <;> by_cases hy0 : y < 0 <;>
      (simp [format_bytes, StrLen, sepIf, write_num_length, hy0, hPP, hpos]
       omega)

theorem pow_split (P : Nat) (hP : P ≤ 9) : (10 : Nat) ^ P * 10 ^ (9 - P) = 10 ^ 9 := by
  rw [← pow_add]
  congr 1
  omega

theorem div_pow_lt (ns P : Nat) (hns : ns ≤ 999999999) (hP : P ≤ 9) :
    ns / 10 ^ (9 - P) < 10 ^ P := by
  rw [Nat.div_lt_iff_lt_mul (Nat.pos_pow_of_pos _ (by omega))]
  calc ns ≤ 999999999 := hns
  _ < 10 ^ 9 := by norm_num
  _ = 10 ^ P * 10 ^ (9 - P) := (pow_split P hP).symm

/-- Claim C2: for every representable decomposed date-time and every layout
combination (punctuated or compact, offset suffix present or `Z`, fractional
digits 0-9), parsing the publicly visible string produced by formatting it
succeeds and returns the same date-time with the nanosecond field truncated
to the layout's fractional precision (floor to a multiple of `10^(9-P)`,
hence exact when `P = 9`). -/
theorem claim_C2 (verify F O : Bool) (P : Nat) (hP : P ≤ 9)
    (y : Int) (m d h mi s ns : Nat)
    (hy : -9999 ≤ y ∧ y ≤ 9999) (hm : 1 ≤ m ∧ m ≤ 12)
    (hd : 1 ≤ d ∧ d ≤ days_in_month (gregorian_leap_year y) m)
    (hh : h ≤ 23) (hmi : mi ≤ 59) (hs : s ≤ 59) (hns : ns ≤ 999999999) :
    parse_iso8601 verify (timestamp_str_view (do_format F O P
        ⟨⟨y, days_before_month (gregorian_leap_year y) m + d⟩, ⟨h, mi, s, ns⟩⟩ ⟨false, 0, 0⟩)) =
      some ⟨⟨y, days_before_month (gregorian_leap_year y) m + d⟩,
        ⟨h, mi, s, ns / 10 ^ (9 - P) * 10 ^ (9 - P)⟩⟩ := by
  have hdim := days_in_month_le (gregorian_leap_year y) m
  have hmd : ordinal_to_md (gregorian_leap_year y)
      (days_before_month (gregorian_leap_year y) m + d) = (m, d) :=
    ordinal_to_md_dbm (gregorian_leap_year y) m (by omega) d (by omega) ⟨hm.1, hd.1, hd.2⟩
  have hvP : ns / 10 ^ (9 - P) < 10 ^ P := div_pow_lt ns P hns hP
  have hfrac : ∀ dc ds,
      (if P = 0 then none else some (46, num_digits (ns / 10 ^ (9 - P)) P)) = some (dc, ds) →
      (dc = 46 ∨ dc = 44) ∧ ∀ x ∈ ds, x < 10 := by
    intro dc ds hq
    by_cases hP0 : P = 0
    · rw [if_pos hP0] at hq
      cases hq
    · rw [if_neg hP0, Option.some.injEq, Prod.mk.injEq] at hq
      obtain ⟨h1, h2⟩ := hq
      subst h1 h2
      exact ⟨Or.inl rfl, num_digits_lt_ten _ _ hvP⟩
  have htz : ∀ sign colon oh om,
      (if O then TzForm.offs 43 true 0 0 else TzForm.zed) = TzForm.offs sign colon oh om →
      (sign = 43 ∨ sign = 45 ∨ sign = 226) ∧ oh ≤ 99 ∧ om ≤ 99 := by
    intro sign colon oh om hq
    cases O
    · simp only [if_false, Bool.false_eq_true] at hq
      cases hq
    · simp only [if_true] at hq
      cases hq
      exact ⟨Or.inl rfl, by omega, by omega⟩
  rw [do_format_shape F O P hP y _ h mi s ns false 0 0 m d hmd]
  rw [view_format_bytes F O P hP y m d h mi s ns]
  rw [parse_render_dt verify F y m d h mi s
      (if P = 0 then none else some (46, num_digits (ns / 10 ^ (9 - P)) P))
      (if O then TzForm.offs 43 true 0 0 else TzForm.zed)
      hy hm hd hh hmi (by omega) hfrac htz]
  rw [if_neg (by rintro ⟨hv, hx⟩; omega : ¬(verify = true ∧ 60 < s))]
  rw [if_neg (by omega : ¬ 59 < s)]
  have hfv : frac_value (if P = 0 then none else some (46, num_digits (ns / 10 ^ (9 - P)) P)) =
      ns / 10 ^ (9 - P) * 10 ^ (9 - P) := by
    by_cases hP0 : P = 0
    · subst hP0
      rw [if_pos rfl]
      simp only [frac_value]
      norm_num
      omega
    · rw [if_neg hP0]
      simp only [frac_value]
      exact fracval_num_digits P (by omega) hP _ hvP
  rw [hfv]
  cases O
  · rw [if_neg (by simp)]
    rfl
  · rw [if_pos rfl]
    show checked_add_seconds _ _ = _
    have hz : (if (43 : Nat) ≠ 43 then -(3600 * ((0 : Nat) : Int) + 60 * ((0 : Nat) : Int))
        else 3600 * ((0 : Nat) : Int) + 60 * ((0 : Nat) : Int)) = 0 := by norm_num
    rw [hz]
    have hob := ordinal_bounds (gregorian_leap_year y) m (by omega) d (by omega) ⟨hm.1, hd.1, hd.2⟩
    apply checked_add_zero y _ h mi s _ hy _ hh hmi hs
    rw [days_in_year_eq]
    rcases hob with ⟨h1, h2⟩
    constructor
    · exact h1
    · exact h2

theorem leap_eq_all (y : Int) : is_leap_year y = gregorian_leap_year y := by
  rw [Bool.eq_iff_iff]
  simp only [is_leap_year, gregorian_leap_year, Bool.and_eq_true, Bool.or_eq_true,
    Bool.not_eq_true', beq_eq_false_iff_ne, beq_iff_eq, ne_eq]
  have t4 : (y.tmod 4 = 0) ↔ (4 ∣ y) := Int.dvd_iff_tmod_eq_zero.symm
  have t25 : (y.tmod 25 = 0) ↔ (25 ∣ y) := Int.dvd_iff_tmod_eq_zero.symm
  have t16 : (y.tmod 16 = 0) ↔ (16 ∣ y) := Int.dvd_iff_tmod_eq_zero.symm
  rw [t4, t25, t16]
  omega

set_option maxRecDepth 4000 in
theorem simd_avx2_leap :
    ∀ o : Nat, o < 367 → (1 ≤ o ∧ o ≤ 366) →
      (to_calendar_date_avx2 ⟨2004, o⟩).2 = ordinal_to_md true o := by decide

set_option maxRecDepth 4000 in
theorem simd_sse2_leap :
    ∀ o : Nat, o < 367 → (1 ≤ o ∧ o ≤ 366) →
      (to_calendar_date_sse2 ⟨2004, o⟩).2 = ordinal_to_md true o := by decide

set_option maxRecDepth 4000 in
theorem simd_avx2_nonleap :
    ∀ o : Nat, o < 366 → (1 ≤ o ∧ o ≤ 365) →
      (to_calendar_date_avx2 ⟨2005, o⟩).2 = ordinal_to_md false o := by decide

set_option maxRecDepth 4000 in
theorem simd_sse2_nonleap :
    ∀ o : Nat, o < 366 → (1 ≤ o ∧ o ≤ 365) →
      (to_calendar_date_sse2 ⟨2005, o⟩).2 = ordinal_to_md false o := by decide

theorem avx2_congr (y y2 : Int) (o : Nat) (h : is_leap_year y = is_leap_year y2) :
    (to_calendar_date_avx2 ⟨y, o⟩).2 = (to_calendar_date_avx2 ⟨y2, o⟩).2 := by
  simp only [to_calendar_date_avx2, h]

theorem sse2_congr (y y2 : Int) (o : Nat) (h : is_leap_year y = is_leap_year y2) :
    (to_calendar_date_sse2 ⟨y, o⟩).2 = (to_calendar_date_sse2 ⟨y2, o⟩).2 := by
  simp only [to_calendar_date_sse2, h]

/-! ## The claims -/

/-- Claim C1 counterexample: the spec's example equation fails on the code.
`parse("2011-06-17T18:30+04:00")` does not equal
`parse("2011-06-17T14:30:00.000Z")`: the parser ADDS a `+` offset instead of
subtracting it. -/
theorem claim_C1_counterexample :
    parse_iso8601 true [50, 48, 49, 49, 45, 48, 54, 45, 49, 55, 84, 49, 56, 58, 51, 48,
        43, 48, 52, 58, 48, 48] ≠
      parse_iso8601 true [50, 48, 49, 49, 45, 48, 54, 45, 49, 55, 84, 49, 52, 58, 51, 48,
        58, 48, 48, 46, 48, 48, 48, 90] := by
  decide

/-- Claim C1 (amended): parsing a date-time with a `+hh:mm` suffix ADDS the
offset to the parsed local time, so `parse("2011-06-17T18:30+04:00")` equals
`parse("2011-06-17T22:30:00.000Z")`, both being 22:30 UTC on ordinal day 168
of 2011. -/
theorem claim_C1 : ∀ verify : Bool,
    parse_iso8601 verify [50, 48, 49, 49, 45, 48, 54, 45, 49, 55, 84, 49, 56, 58, 51, 48,
        43, 48, 52, 58, 48, 48] =
      parse_iso8601 verify [50, 48, 49, 49, 45, 48, 54, 45, 49, 55, 84, 50, 50, 58, 51, 48,
        58, 48, 48, 46, 48, 48, 48, 90] ∧
    parse_iso8601 verify [50, 48, 49, 49, 45, 48, 54, 45, 49, 55, 84, 49, 56, 58, 51, 48,
        43, 48, 52, 58, 48, 48] =
      some ⟨⟨2011, 168⟩, ⟨22, 30, 0, 0⟩⟩ := by
  decide

theorem view_length_nonneg (F O : Bool) (P : Nat) (y : Int) (m d h mi s ns : Nat)
    (off : UtcOffset) (hy0 : ¬ y < 0) :
    (timestamp_str_view (format_bytes F O P y m d h mi s ns off)).length =
      (format_bytes F O P y m d h mi s ns off).length - 1 := by
  simp only [format_bytes, if_neg hy0]
  simp [timestamp_str_view]

/-- Claim C3 counterexample: the buffer lengths do not range over 18..35;
the compact/no-offset/0-digit layout is 17 bytes and the
punctuated/offset/9-digit layout is 36 bytes. -/
theorem claim_C3_counterexample :
    (do_format false false 0 ⟨⟨1970, 1⟩, ⟨0, 0, 0, 0⟩⟩ ⟨false, 0, 0⟩).length = 17 ∧
      (do_format true true 9 ⟨⟨1970, 1⟩, ⟨0, 0, 0, 0⟩⟩ ⟨false, 0, 0⟩).length = 36 := by
  decide

/-- Claim C3 (amended): every formatted buffer has exactly the length
`StrLen F O P` of its layout's template, the internal lengths range over
17..36 (not 18..35), and for a non-negative year the publicly visible string
is one byte shorter because the `+` sign byte is stripped. -/
theorem claim_C3 (F O : Bool) (P : Nat) (hP : P ≤ 9) (y : Int) (m d h mi s ns : Nat)
    (oneg : Bool) (ooh oom : Nat)
    (hm : 1 ≤ m ∧ m ≤ 12) (hd : 1 ≤ d ∧ d ≤ days_in_month (gregorian_leap_year y) m) :
    (do_format F O P ⟨⟨y, days_before_month (gregorian_leap_year y) m + d⟩, ⟨h, mi, s, ns⟩⟩
        ⟨oneg, ooh, oom⟩).length = StrLen F O P ∧
    (template F O P).length = StrLen F O P ∧
    (17 ≤ StrLen F O P ∧ StrLen F O P ≤ 36) ∧
    (¬ y < 0 →
      (timestamp_str_view (do_format F O P
          ⟨⟨y, days_before_month (gregorian_leap_year y) m + d⟩, ⟨h, mi, s, ns⟩⟩
          ⟨oneg, ooh, oom⟩)).length = StrLen F O P - 1) := by
  have hdim := days_in_month_le (gregorian_leap_year y) m
  have hmd := ordinal_to_md_dbm (gregorian_leap_year y) m (by omega) d (by omega)
    ⟨hm.1, hd.1, hd.2⟩
  rw [do_format_shape F O P hP y _ h mi s ns oneg ooh oom m d hmd]
  refine ⟨format_bytes_length F O P hP y m d h mi s ns oneg ooh oom, ?_, ?_, ?_⟩
  · cases F <;> cases O <;> interval_cases P <;> rfl
  · constructor <;> (simp only [StrLen]; split <;> split <;> split <;> omega)
  · intro hy0
    rw [view_length_nonneg F O P y m d h mi s ns ⟨oneg, ooh, oom⟩ hy0,
      format_bytes_length F O P hP y m d h mi s ns oneg ooh oom]

/-- Claim C4: a parsed seconds value of 60 is clamped to second 59 with
nanosecond 999999999 regardless of the fractional part; under strict
verification any seconds value above 60 fails the whole parse, and without
verification every value above 59 is clamped the same way. -/
theorem claim_C4 (verify F : Bool) (y : Int) (m d h mi sec : Nat)
    (frac : Option (Nat × List Nat))
    (hy : -9999 ≤ y ∧ y ≤ 9999) (hm : 1 ≤ m ∧ m ≤ 12)
    (hd : 1 ≤ d ∧ d ≤ days_in_month (gregorian_leap_year y) m)
    (hh : h ≤ 23) (hmi : mi ≤ 59) (hsec : 60 ≤ sec ∧ sec ≤ 99)
    (hfrac : ∀ dc ds, frac = some (dc, ds) → (dc = 46 ∨ dc = 44) ∧ ∀ x ∈ ds, x < 10) :
    parse_iso8601 verify (render_dt F y m d h mi sec frac TzForm.zed) =
      if verify ∧ 60 < sec then none
      else some ⟨⟨y, days_before_month (gregorian_leap_year y) m + d⟩,
        ⟨h, mi, 59, 999999999⟩⟩ := by
  rw [parse_render_dt verify F y m d h mi sec frac TzForm.zed hy hm hd hh hmi hsec.2 hfrac
    (by intro sign colon oh om hq; cases hq)]
  rw [if_pos (show 59 < sec by omega)]
  rfl

/-- Claim C4 witness: parsing a rendered second of 60 with a fractional part
yields 59 s / 999999999 ns in lenient mode, and a rendered second of 61
fails in strict mode. -/
theorem claim_C4_witness :
    parse_iso8601 false (render_dt true 2016 12 31 23 59 60 (some (46, [5])) TzForm.zed) =
      some ⟨⟨2016, days_before_month (gregorian_leap_year 2016) 12 + 31⟩,
        ⟨23, 59, 59, 999999999⟩⟩ ∧
    parse_iso8601 true (render_dt true 2016 12 31 23 59 61 none TzForm.zed) = none := by
  constructor
  · have h1 := claim_C4 false true 2016 12 31 23 59 60 (some (46, [5])) (by decide) (by decide)
      (by decide) (by decide) (by decide) (by decide)
      (by
        intro dc ds hq
        simp only [Option.some.injEq, Prod.mk.injEq] at hq
        obtain ⟨h1, h2⟩ := hq
        subst h1
        subst h2
        exact ⟨Or.inl rfl, by decide⟩)
    exact h1.trans (by decide)
  · have h2 := claim_C4 true true 2016 12 31 23 59 61 none (by decide) (by decide)
      (by decide) (by decide) (by decide) (by decide) (by intro dc ds hq; cases hq)
    exact h2.trans (by decide)

/-- Claim C5: a fraction introduced by a full stop or comma contributes each
digit scaled by place value — the digit at 0-based index k contributes
`digit * (100000000 / 10^k)` nanoseconds, so a single digit 5 yields
500000000 ns and digits at index 9 or beyond are consumed but contribute
nothing (the factor underflows to zero). -/
theorem claim_C5 (verify F : Bool) (y : Int) (m d h mi s : Nat) (dc : Nat) (ds : List Nat)
    (hy : -9999 ≤ y ∧ y ≤ 9999) (hm : 1 ≤ m ∧ m ≤ 12)
    (hd : 1 ≤ d ∧ d ≤ days_in_month (gregorian_leap_year y) m)
    (hh : h ≤ 23) (hmi : mi ≤ 59) (hs : s ≤ 59)
    (hdc : dc = 46 ∨ dc = 44) (hds : ∀ x ∈ ds, x < 10) :
    parse_iso8601 verify (render_dt F y m d h mi s (some (dc, ds)) TzForm.zed) =
      some ⟨⟨y, days_before_month (gregorian_leap_year y) m + d⟩,
        ⟨h, mi, s, ∑ k ∈ Finset.range ds.length, ds.getD k 0 * (100000000 / 10 ^ k)⟩⟩ := by
  rw [parse_render_dt verify F y m d h mi s (some (dc, ds)) TzForm.zed hy hm hd hh hmi
    (by omega)
    (by
      intro dc2 ds2 hq
      simp only [Option.some.injEq, Prod.mk.injEq] at hq
      obtain ⟨h1, h2⟩ := hq
      subst h1
      subst h2
      exact ⟨hdc, hds⟩)
    (by intro sign colon oh om hq; cases hq)]
  rw [if_neg (by rintro ⟨_, hx⟩; omega), if_neg (by omega)]
  simp only [tz_result, frac_value, fracval_spec, Option.some.injEq]

/-- Claim C5 witness: parsing a rendered ".5" fraction yields 500000000 ns. -/
theorem claim_C5_witness :
    parse_iso8601 true (render_dt true 2013 10 7 8 23 19 (some (46, [5])) TzForm.zed) =
      some ⟨⟨2013, days_before_month (gregorian_leap_year 2013) 10 + 7⟩,
        ⟨8, 23, 19, 500000000⟩⟩ := by
  have h1 := claim_C5 true true 2013 10 7 8 23 19 46 [5] (by decide) (by decide) (by decide)
    (by decide) (by decide) (by decide) (Or.inl rfl) (by decide)
  exact h1.trans (by simp)

/-- Claim C6: for a layout with 1-9 fractional digits the formatter writes
the dot and then exactly the digits of `ns / 10^(9-P)` — truncation, never
rounding, with no carry into the seconds digits. -/
theorem claim_C6 (F O oneg : Bool) (P : Nat) (hP : 1 ≤ P ∧ P ≤ 9) (y : Int) (o m d : Nat)
    (h mi s ns : Nat) (ooh oom : Nat)
    (hmd : ordinal_to_md (gregorian_leap_year y) o = (m, d)) :
    do_format F O P ⟨⟨y, o⟩, ⟨h, mi, s, ns⟩⟩ ⟨oneg, ooh, oom⟩ =
      (if y < 0 then [45] else [43]) ++ write_num y.natAbs 4 ++ sepIf F 45 ++ write_num m 2 ++
        sepIf F 45 ++ write_num d 2 ++ [84] ++ write_num h 2 ++ sepIf F 58 ++ write_num mi 2 ++
        sepIf F 58 ++ write_num s 2 ++ (46 :: write_num (ns / 10 ^ (9 - P)) P) ++
        (if O then (if oneg then [45] else [43]) ++ write_num ooh 2 ++ [58] ++ write_num oom 2
         else [90]) := by
  rw [do_format_shape F O P hP.2 y o h mi s ns oneg ooh oom m d hmd]
  simp only [format_bytes, if_pos hP]

/-- Claim C6 witness: formatting nanosecond 999999999 at 1-digit precision
writes fractional digit 9 with the seconds field still 59 (the bytes of
"+2014-04-12T16:00:59.9Z"). -/
theorem claim_C6_witness :
    do_format true false 1 ⟨⟨2014, 102⟩, ⟨16, 0, 59, 999999999⟩⟩ ⟨false, 0, 0⟩ =
      [43, 50, 48, 49, 52, 45, 48, 52, 45, 49, 50, 84, 49, 54, 58, 48, 48, 58, 53, 57,
        46, 57, 90] := by
  have h1 := claim_C6 true false false 1 (by decide) 2014 102 4 12 16 0 59 999999999 0 0
    (by decide)
  exact h1.trans (by decide)

/-- Claim C7 counterexample: the parser does not accept a leading `+` or the
Unicode minus sign U+2212 on the year — both inputs fail in lenient mode
(the bytes of "+2021-10-17T02:03:01Z" and "−2021-10-17T02:03:01Z"). -/
theorem claim_C7_counterexample :
    parse_iso8601 false [43, 50, 48, 50, 49, 45, 49, 48, 45, 49, 55, 84, 48, 50, 58, 48,
        51, 58, 48, 49, 90] = none ∧
    parse_iso8601 false [226, 136, 146, 50, 48, 50, 49, 45, 49, 48, 45, 49, 55, 84, 48,
        50, 58, 48, 51, 58, 48, 49, 90] = none := by
  decide

/-- Claim C7 (amended): formatting a negative year produces a leading `-`
that the public view preserves; the parser accepts an ASCII `-` year sign or
a bare unsigned year; a leading `+` and the Unicode minus sign U+2212 on the
year are both rejected; U+2212 is accepted as a timezone offset sign
(subtracting the offset). -/
theorem claim_C7 (verify F O : Bool) (P : Nat) (hP : P ≤ 9) (y : Int)
    (m d h mi s ns : Nat) (oneg colon : Bool) (ooh oom oh2 om2 : Nat)
    (hy : -9999 ≤ y ∧ y ≤ 9999) (hm : 1 ≤ m ∧ m ≤ 12)
    (hd : 1 ≤ d ∧ d ≤ days_in_month (gregorian_leap_year y) m)
    (hh : h ≤ 23) (hmi : mi ≤ 59) (hs : s ≤ 59) (hoh : oh2 ≤ 99) (hom : om2 ≤ 99) :
    (y < 0 →
      (do_format F O P ⟨⟨y, days_before_month (gregorian_leap_year y) m + d⟩,
          ⟨h, mi, s, ns⟩⟩ ⟨oneg, ooh, oom⟩)[0]? = some 45 ∧
      timestamp_str_view (do_format F O P
          ⟨⟨y, days_before_month (gregorian_leap_year y) m + d⟩, ⟨h, mi, s, ns⟩⟩
          ⟨oneg, ooh, oom⟩) =
        do_format F O P ⟨⟨y, days_before_month (gregorian_leap_year y) m + d⟩,
          ⟨h, mi, s, ns⟩⟩ ⟨oneg, ooh, oom⟩) ∧
    parse_iso8601 verify (render_dt F y m d h mi s none TzForm.zed) =
      some ⟨⟨y, days_before_month (gregorian_leap_year y) m + d⟩, ⟨h, mi, s, 0⟩⟩ ∧
    parse_iso8601 verify [43, 50, 48, 50, 49, 45, 49, 48, 45, 49, 55, 84, 48, 50, 58, 48,
        51, 58, 48, 49, 90] = none ∧
    parse_iso8601 verify [226, 136, 146, 50, 48, 50, 49, 45, 49, 48, 45, 49, 55, 84, 48,
        50, 58, 48, 51, 58, 48, 49, 90] = none ∧
    parse_iso8601 verify (render_dt F y m d h mi s none (TzForm.offs 226 colon oh2 om2)) =
      checked_add_seconds ⟨⟨y, days_before_month (gregorian_leap_year y) m + d⟩,
        ⟨h, mi, s, 0⟩⟩ (-(3600 * (oh2 : Int) + 60 * om2)) := by
  have hdim := days_in_month_le (gregorian_leap_year y) m
  have hmd := ordinal_to_md_dbm (gregorian_leap_year y) m (by omega) d (by omega)
    ⟨hm.1, hd.1, hd.2⟩
  refine ⟨?_, ?_, ?_, ?_, ?_⟩
  · intro hy0
    rw [do_format_shape F O P hP y _ h mi s ns oneg ooh oom m d hmd]
    constructor
    · simp only [format_bytes, if_pos hy0]
      rfl
    · simp only [format_bytes, if_pos hy0, timestamp_str_view]
      simp
  · rw [parse_render_dt verify F y m d h mi s none TzForm.zed hy hm hd hh hmi (by omega)
      (by intro dc ds hq; cases hq) (by intro sign colon2 oh om hq; cases hq)]
    rw [if_neg (by rintro ⟨_, hx⟩; omega), if_neg (by omega)]
    rfl
  · cases verify <;> decide
  · cases verify <;> decide
  · rw [parse_render_dt verify F y m d h mi s none (TzForm.offs 226 colon oh2 om2) hy hm hd
      hh hmi (by omega) (by intro dc ds hq; cases hq)
      (by
        intro sign colon2 oh om hq
        obtain ⟨h1, h2, h3, h4⟩ := TzForm.offs.inj hq
        exact ⟨Or.inr (Or.inr h1.symm), h3 ▸ hoh, h4 ▸ hom⟩)]
    rw [if_neg (by rintro ⟨_, hx⟩; omega), if_neg (by omega)]
    simp only [tz_result, frac_value]
    rw [if_pos (by decide : (226 : Nat) ≠ 43)]

/-- Claim C7 witness: year -4 formats with a leading minus byte kept by the
view, parses back from its rendered form, and a U+2212-signed 04:00 offset
is applied by subtraction. -/
theorem claim_C7_witness :
    ((do_format true false 3 ⟨⟨-4, days_before_month (gregorian_leap_year (-4)) 12 + 16⟩,
        ⟨10, 0, 0, 0⟩⟩ ⟨false, 0, 0⟩)[0]? = some 45 ∧
      timestamp_str_view (do_format true false 3
          ⟨⟨-4, days_before_month (gregorian_leap_year (-4)) 12 + 16⟩, ⟨10, 0, 0, 0⟩⟩
          ⟨false, 0, 0⟩) =
        do_format true false 3 ⟨⟨-4, days_before_month (gregorian_leap_year (-4)) 12 + 16⟩,
          ⟨10, 0, 0, 0⟩⟩ ⟨false, 0, 0⟩) ∧
    parse_iso8601 true (render_dt true (-4) 12 16 10 0 0 none TzForm.zed) =
      some ⟨⟨-4, days_before_month (gregorian_leap_year (-4)) 12 + 16⟩, ⟨10, 0, 0, 0⟩⟩ ∧
    parse_iso8601 true (render_dt true 2021 10 17 2 3 1 none (TzForm.offs 226 true 4 0)) =
      checked_add_seconds ⟨⟨2021, days_before_month (gregorian_leap_year 2021) 10 + 17⟩,
        ⟨2, 3, 1, 0⟩⟩ (-(3600 * (4 : Int) + 60 * 0)) := by
  have h1 := claim_C7 true true false 3 (by decide) (-4) 12 16 10 0 0 0 false true 0 0 4 0
    (by decide) (by decide) (by decide) (by decide) (by decide) (by decide) (by decide)
    (by decide)
  have h2 := claim_C7 true true false 3 (by decide) 2021 10 17 2 3 1 0 false true 0 0 4 0
    (by decide) (by decide) (by decide) (by decide) (by decide) (by decide) (by decide)
    (by decide)
  exact ⟨h1.1 (by decide), h1.2.1, h2.2.2.2.2⟩

/-- Claim C8: the hot-path leap-year test (divisible by 4 and (not divisible
by 25 or divisible by 16)) agrees with the standard Gregorian rule on every
year of the practical range. -/
theorem claim_C8 (y : Int) (hy : -9999 ≤ y ∧ y ≤ 9999) :
    is_leap_year y = gregorian_leap_year y :=
  leap_eq_all y

/-- Claim C8 witness: the two rules agree at year 2000. -/
theorem claim_C8_witness :
    ((-9999 : Int) ≤ 2000 ∧ (2000 : Int) ≤ 9999) ∧
      is_leap_year 2000 = gregorian_leap_year 2000 :=
  ⟨by decide, claim_C8 2000 (by decide)⟩

/-- Claim C9: on every valid (year, ordinal) pair the AVX2 and SSE2 calendar
decompositions return exactly the (year, month, day) triple of the scalar
conversion. -/
theorem claim_C9 (y : Int) (o : Nat) (hy : -9999 ≤ y ∧ y ≤ 9999)
    (ho : 1 ≤ o ∧ o ≤ days_in_year y) :
    to_calendar_date_avx2 ⟨y, o⟩ = to_calendar_date ⟨y, o⟩ ∧
      to_calendar_date_sse2 ⟨y, o⟩ = to_calendar_date ⟨y, o⟩ := by
  have hl := leap_eq_all y
  have hsc : to_calendar_date ⟨y, o⟩ = (y, ordinal_to_md (gregorian_leap_year y) o) := rfl
  have ha : to_calendar_date_avx2 ⟨y, o⟩ = (y, (to_calendar_date_avx2 ⟨y, o⟩).2) := rfl
  have hb : to_calendar_date_sse2 ⟨y, o⟩ = (y, (to_calendar_date_sse2 ⟨y, o⟩).2) := rfl
  by_cases hg : gregorian_leap_year y = true
  · have hil : is_leap_year y = true := by rw [hl, hg]
    have hbnd : o ≤ 366 := by
      have h2 := ho.2
      rw [days_in_year_eq, hg] at h2
      simpa using h2
    constructor
    · rw [ha, hsc, hg, avx2_congr y 2004 o (by rw [hil]; rfl),
        simd_avx2_leap o (by omega) ⟨ho.1, hbnd⟩]
    · rw [hb, hsc, hg, sse2_congr y 2004 o (by rw [hil]; rfl),
        simd_sse2_leap o (by omega) ⟨ho.1, hbnd⟩]
  · have hgf : gregorian_leap_year y = false := by
      cases hq : gregorian_leap_year y
      · rfl
      · exact absurd hq hg
    have hil : is_leap_year y = false := by rw [hl, hgf]
    have hbnd : o ≤ 365 := by
      have h2 := ho.2
      rw [days_in_year_eq, hgf] at h2
      simpa using h2
    constructor
    · rw [ha, hsc, hgf, avx2_congr y 2005 o (by rw [hil]; rfl),
        simd_avx2_nonleap o (by omega) ⟨ho.1, hbnd⟩]
    · rw [hb, hsc, hgf, sse2_congr y 2005 o (by rw [hil]; rfl),
        simd_sse2_nonleap o (by omega) ⟨ho.1, hbnd⟩]

/-- Claim C9 witness: both vector paths agree with the scalar conversion on
ordinal 60 of the leap year 2004 (February 29). -/
theorem claim_C9_witness :
    to_calendar_date_avx2 ⟨2004, 60⟩ = to_calendar_date ⟨2004, 60⟩ ∧
      to_calendar_date_sse2 ⟨2004, 60⟩ = to_calendar_date ⟨2004, 60⟩ :=
  claim_C9 2004 60 (by decide) (by decide)

/-- Claim C10: the parser range-checks neither offset field — any two-digit
hour and minute are applied literally as `hour*3600 + minute*60` seconds
(added for `+`, subtracted otherwise), the parse failing only if the shifted
date-time is unrepresentable. -/
theorem claim_C10 (verify F colon : Bool) (sign : Nat) (hsign : sign = 43 ∨ sign = 45)
    (y : Int) (m d h mi s oh om : Nat)
    (hy : -9999 ≤ y ∧ y ≤ 9999) (hm : 1 ≤ m ∧ m ≤ 12)
    (hd : 1 ≤ d ∧ d ≤ days_in_month (gregorian_leap_year y) m)
    (hh : h ≤ 23) (hmi : mi ≤ 59) (hs : s ≤ 59) (hoh : oh ≤ 99) (hom : om ≤ 99) :
    parse_iso8601 verify (render_dt F y m d h mi s none (TzForm.offs sign colon oh om)) =
      checked_add_seconds ⟨⟨y, days_before_month (gregorian_leap_year y) m + d⟩,
        ⟨h, mi, s, 0⟩⟩
        (if sign ≠ 43 then -(3600 * (oh : Int) + 60 * om)
         else 3600 * (oh : Int) + 60 * om) := by
  rw [parse_render_dt verify F y m d h mi s none (TzForm.offs sign colon oh om) hy hm hd hh
    hmi (by omega) (by intro dc ds hq; cases hq)
    (by
      intro sg c2 o2 m2 hq
      obtain ⟨h1, h2, h3, h4⟩ := TzForm.offs.inj hq
      refine ⟨?_, h3 ▸ hoh, h4 ▸ hom⟩
      rcases hsign with hv | hv
      · exact Or.inl (h1.symm.trans hv)
      · exact Or.inr (Or.inl (h1.symm.trans hv)))]
  rw [if_neg (by rintro ⟨_, hx⟩; omega), if_neg (by omega)]
  rfl

/-- Claim C10 witness: the out-of-range suffix "+99:99" is accepted and its
362340 seconds shift 2011-06-17T18:30 to 2011-06-21T23:09. -/
theorem claim_C10_witness :
    ((43 : Nat) = 43 ∨ (43 : Nat) = 45) ∧
      parse_iso8601 false (render_dt true 2011 6 17 18 30 0 none (TzForm.offs 43 true 99 99)) =
        some ⟨⟨2011, 172⟩, ⟨23, 9, 0, 0⟩⟩ := by
  constructor
  · exact Or.inl rfl
  · have h1 := claim_C10 false true true 43 (Or.inl rfl) 2011 6 17 18 30 0 99 99 (by decide)
      (by decide) (by decide) (by decide) (by decide) (by decide) (by decide) (by decide)
    exact h1.trans (by decide)

/-- Claim C2 witness: the round trip at layout (punctuated, no offset, 6
fractional digits) for 2021-11-19T04:12:54 with 123456 ns returns the
nanoseconds truncated to microsecond precision. -/
theorem claim_C2_witness :
    parse_iso8601 true (timestamp_str_view (do_format true false 6
        ⟨⟨2021, days_before_month (gregorian_leap_year 2021) 11 + 19⟩, ⟨4, 12, 54, 123456⟩⟩
        ⟨false, 0, 0⟩)) =
      some ⟨⟨2021, days_before_month (gregorian_leap_year 2021) 11 + 19⟩,
        ⟨4, 12, 54, 123456 / 10 ^ (9 - 6) * 10 ^ (9 - 6)⟩⟩ :=
  claim_C2 true true false 6 (by decide) 2021 11 19 4 12 54 123456 (by decide) (by decide) (by decide)
    (by decide) (by decide) (by decide) (by decide)

/-- Claim C3 witness: the punctuated/offset/9-digit layout formats to the
full 36-byte buffer, 35 bytes visible for the non-negative year 2014. -/
theorem claim_C3_witness :
    (do_format true true 9 ⟨⟨2014, days_before_month (gregorian_leap_year 2014) 4 + 12⟩,
        ⟨16, 0, 0, 0⟩⟩ ⟨false, 15, 30⟩).length = StrLen true true 9 ∧
    (timestamp_str_view (do_format true true 9
        ⟨⟨2014, days_before_month (gregorian_leap_year 2014) 4 + 12⟩, ⟨16, 0, 0, 0⟩⟩
        ⟨false, 15, 30⟩)).length = StrLen true true 9 - 1 :=
  ⟨(claim_C3 true true 9 (by decide) 2014 4 12 16 0 0 0 false 15 30 (by decide) (by decide)).1,
   (claim_C3 true true 9 (by decide) 2014 4 12 16 0 0 0 false 15 30 (by decide)
      (by decide)).2.2.2 (by decide)⟩
